import Mathlib

/-!
Shallow embedding of the output-script classification and address/key
serialization layer of the btclib repository (module `btclib.b58` and the
collaborators it uses: Base58Check codec, SHA-256 / RIPEMD-160 hashing,
network registry, script command codec, script_pub_key template engine).

Bytes are modelled as `List Nat` with the invariant that every entry is
below 256; machine words inside the hash functions are `Nat` reduced
modulo `2 ^ 32` at every step.  Fallible operations return
`Except BErr`, where `BErr` models the typed `BTClibValueError` of the
source, carrying the error message.
-/

namespace Btclib

/-- Big-endian interpretation of a byte list as a natural number,
mirroring `int.from_bytes(_, byteorder="big")`. -/
def bytesToNat (bs : List Nat) : Nat :=
  bs.foldl (fun a b => a * 256 + b) 0

/-- Fixed-width big-endian byte serialization of a natural number,
mirroring `int.to_bytes(size, byteorder="big")`. -/
def natToBytesBE : Nat → Nat → List Nat
  | 0, _ => []
  | k + 1, n => natToBytesBE k (n / 256) ++ [n % 256]

/-- Big-endian digit expansion in base `b`, with structural fuel (the
fuel is always instantiated with the number itself, which bounds the
recursion depth). -/
def digitsBEAux (b : Nat) : Nat → Nat → List Nat
  | 0, _ => []
  | fuel + 1, n => if n = 0 then [] else digitsBEAux b fuel (n / b) ++ [n % b]

theorem digitsBEAux_congr (b : Nat) (hb : 2 ≤ b) :
    ∀ n fuel, n ≤ fuel → digitsBEAux b fuel n = digitsBEAux b n n := by
  intro n
  induction n using Nat.strong_induction_on with
  | _ n ih =>
    intro fuel hfuel
    by_cases h0 : n = 0
    · subst h0
      cases fuel with
      | zero => rfl
      | succ fuel => simp [digitsBEAux]
    · have hn1 : 1 ≤ n := Nat.pos_of_ne_zero h0
      have hdivlt : n / b < n := Nat.div_lt_self hn1 (by omega)
      obtain ⟨f, rfl⟩ : ∃ f, fuel = f + 1 := ⟨fuel - 1, by omega⟩
      obtain ⟨m, rfl⟩ : ∃ m, n = m + 1 := ⟨n - 1, by omega⟩
      show digitsBEAux b (f + 1) (m + 1) = digitsBEAux b (m + 1) (m + 1)
      rw [digitsBEAux, digitsBEAux, if_neg h0, if_neg h0]
      congr 1
      rw [ih _ hdivlt f (by omega), ih _ hdivlt m (by omega)]

/-- Minimal big-endian byte serialization (no leading zero bytes;
the number 0 maps to the empty list), mirroring
`int.to_bytes((int.bit_length() + 7) // 8, byteorder="big")`. -/
def natToBytesMin (n : Nat) : List Nat :=
  digitsBEAux 256 n n

/-- Number of leading zero bytes of a byte list. -/
def countLeadingZeros : List Nat → Nat
  | [] => 0
  | b :: bs => if b = 0 then countLeadingZeros bs + 1 else 0

theorem bytesToNat_append (xs ys : List Nat) :
    bytesToNat (xs ++ ys) = ys.foldl (fun a b => a * 256 + b) (bytesToNat xs) := by
  simp [bytesToNat, List.foldl_append]

theorem bytesToNat_snoc (xs : List Nat) (b : Nat) :
    bytesToNat (xs ++ [b]) = bytesToNat xs * 256 + b := by
  simp [bytesToNat_append, List.foldl]

theorem natToBytesBE_length (k n : Nat) : (natToBytesBE k n).length = k := by
  induction k generalizing n with
  | zero => simp [natToBytesBE]
  | succ k ih => simp [natToBytesBE, ih]

theorem bytesToNat_natToBytesBE (k n : Nat) (h : n < 256 ^ k) :
    bytesToNat (natToBytesBE k n) = n := by
  induction k generalizing n with
  | zero =>
    simp [natToBytesBE, bytesToNat]
    omega
  | succ k ih =>
    have hdiv : n / 256 < 256 ^ k := by
      rw [Nat.div_lt_iff_lt_mul (by omega)]
      calc n < 256 ^ (k + 1) := h
        _ = 256 ^ k * 256 := by ring
    rw [natToBytesBE, bytesToNat_snoc, ih (n / 256) hdiv]
    omega

theorem natToBytesBE_lt (k n : Nat) : ∀ b ∈ natToBytesBE k n, b < 256 := by
  induction k generalizing n with
  | zero => simp [natToBytesBE]
  | succ k ih =>
    intro b hb
    rw [natToBytesBE] at hb
    rcases List.mem_append.mp hb with h | h
    · exact ih _ _ h
    · simp at h; omega

theorem natToBytesMin_zero : natToBytesMin 0 = [] := rfl

theorem natToBytesMin_pos (n : Nat) (h : n ≠ 0) :
    natToBytesMin n = natToBytesMin (n / 256) ++ [n % 256] := by
  obtain ⟨m, rfl⟩ : ∃ m, n = m + 1 := ⟨n - 1, by omega⟩
  unfold natToBytesMin
  rw [digitsBEAux, if_neg h]
  congr 1
  exact digitsBEAux_congr 256 (by omega) _ m
    (by have := Nat.div_lt_self (Nat.pos_of_ne_zero h) (show 1 < 256 by omega); omega)

theorem natToBytesMin_head_ne_zero (n : Nat) :
    (natToBytesMin n).head? = none ∨ ∃ b, (natToBytesMin n).head? = some b ∧ b ≠ 0 := by
  induction n using Nat.strong_induction_on with
  | _ n ih =>
    by_cases h : n = 0
    · subst h; simp [natToBytesMin_zero]
    · rw [natToBytesMin_pos n h]
      by_cases hq : n / 256 = 0
      · right
        have : n % 256 = n := by omega
        simp [hq, natToBytesMin_zero, this, h]
      · have hlt : n / 256 < n := Nat.div_lt_self (Nat.pos_of_ne_zero h) (by omega)
        rcases ih (n / 256) hlt with hnone | ⟨b, hb, hbne⟩
        · exfalso
          have := natToBytesMin_pos (n / 256) hq
          rw [this] at hnone
          cases hempty : natToBytesMin (n / 256 / 256) ++ [n / 256 % 256] with
          | nil => simp at hempty
          | cons x xs => rw [hempty] at hnone; simp at hnone
        · right
          refine ⟨b, ?_, hbne⟩
          rw [List.head?_append_of_ne_nil]
          · exact hb
          · intro hnil
            rw [hnil] at hb; simp at hb

theorem foldl_base_ge (xs : List Nat) (a : Nat) :
    a * 256 ^ xs.length ≤ xs.foldl (fun a b => a * 256 + b) a := by
  induction xs generalizing a with
  | nil => simp
  | cons b bs ih =>
    have h1 := ih (a * 256 + b)
    have h2 : a * 256 ^ (b :: bs).length ≤ (a * 256 + b) * 256 ^ bs.length := by
      have : a * 256 ≤ a * 256 + b := by omega
      calc a * 256 ^ (b :: bs).length = a * 256 * 256 ^ bs.length := by
            simp [List.length_cons]; ring
        _ ≤ (a * 256 + b) * 256 ^ bs.length := Nat.mul_le_mul_right _ this
    simpa using h2.trans h1

theorem bytesToNat_cons_ge (x : Nat) (xs : List Nat) :
    x * 256 ^ xs.length ≤ bytesToNat (x :: xs) := by
  have := foldl_base_ge xs x
  simpa [bytesToNat, List.foldl] using this

/-- A byte list that is empty or has a nonzero head is recovered from its
big-endian value by minimal serialization. -/
theorem natToBytesMin_bytesToNat (bs : List Nat)
    (hlt : ∀ b ∈ bs, b < 256) (hhd : bs.head? = none ∨ ∃ b, bs.head? = some b ∧ b ≠ 0) :
    natToBytesMin (bytesToNat bs) = bs := by
  induction bs using List.reverseRecOn with
  | nil => simp [bytesToNat, natToBytesMin_zero]
  | append_singleton xs b ih =>
    rw [bytesToNat_snoc]
    have hb : b < 256 := hlt b (by simp)
    by_cases hv : bytesToNat xs * 256 + b = 0
    · -- only all-zero bytes reach value 0; the head hypothesis rules that out
      have hb0 : b = 0 := by omega
      have hx0 : bytesToNat xs = 0 := by omega
      exfalso
      cases xs with
      | nil =>
        rcases hhd with h | ⟨c, hc, hcne⟩
        · simp at h
        · simp at hc; omega
      | cons x xs =>
        rcases hhd with h | ⟨c, hc, hcne⟩
        · simp at h
        · simp at hc
          apply hcne
          rw [← hc]
          have hge := bytesToNat_cons_ge x xs
          rw [hx0] at hge
          have hz : x * 256 ^ xs.length = 0 := Nat.le_zero.mp hge
          have hpow : 0 < 256 ^ xs.length := Nat.pos_pow_of_pos _ (by omega)
          rcases Nat.mul_eq_zero.mp hz with h | h
          · exact h
          · omega
    · rw [natToBytesMin_pos _ hv]
      have hmod : (bytesToNat xs * 256 + b) % 256 = b := by omega
      have hdiv : (bytesToNat xs * 256 + b) / 256 = bytesToNat xs := by omega
      rw [hmod, hdiv]
      congr 1
      apply ih
      · intro c hc; exact hlt c (by simp [hc])
      · cases xs with
        | nil => left; rfl
        | cons x xs =>
          rcases hhd with h | ⟨c, hc, hcne⟩
          · simp at h
          · right; refine ⟨x, rfl, ?_⟩
            simp at hc
            omega

/-! ### Base-58 digit conversion -/

/-- Big-endian base-58 digit expansion (empty for 0). -/
def natToB58 (n : Nat) : List Nat :=
  digitsBEAux 58 n n

/-- Value of a big-endian base-58 digit list, mirroring the
`i = i * 58 + digit` accumulation loop of `_b58decode`. -/
def b58ToNat (ds : List Nat) : Nat :=
  ds.foldl (fun a d => a * 58 + d) 0

theorem natToB58_zero : natToB58 0 = [] := rfl

theorem natToB58_pos (n : Nat) (h : n ≠ 0) :
    natToB58 n = natToB58 (n / 58) ++ [n % 58] := by
  obtain ⟨m, rfl⟩ : ∃ m, n = m + 1 := ⟨n - 1, by omega⟩
  unfold natToB58
  rw [digitsBEAux, if_neg h]
  congr 1
  exact digitsBEAux_congr 58 (by omega) _ m
    (by have := Nat.div_lt_self (Nat.pos_of_ne_zero h) (show 1 < 58 by omega); omega)

theorem b58ToNat_snoc (xs : List Nat) (d : Nat) :
    b58ToNat (xs ++ [d]) = b58ToNat xs * 58 + d := by
  simp [b58ToNat, List.foldl_append, List.foldl]

theorem b58ToNat_natToB58 (n : Nat) : b58ToNat (natToB58 n) = n := by
  induction n using Nat.strong_induction_on with
  | _ n ih =>
    by_cases h : n = 0
    · subst h; simp [natToB58_zero, b58ToNat]
    · rw [natToB58_pos n h, b58ToNat_snoc,
        ih (n / 58) (Nat.div_lt_self (Nat.pos_of_ne_zero h) (by omega))]
      omega

theorem natToB58_digits_lt (n : Nat) : ∀ d ∈ natToB58 n, d < 58 := by
  induction n using Nat.strong_induction_on with
  | _ n ih =>
    by_cases h : n = 0
    · subst h; simp [natToB58_zero]
    · rw [natToB58_pos n h]
      intro d hd
      rcases List.mem_append.mp hd with hm | hm
      · exact ih (n / 58) (Nat.div_lt_self (Nat.pos_of_ne_zero h) (by omega)) d hm
      · simp at hm; omega

theorem natToB58_head_ne_zero (n : Nat) :
    (natToB58 n).head? = none ∨ ∃ d, (natToB58 n).head? = some d ∧ d ≠ 0 := by
  induction n using Nat.strong_induction_on with
  | _ n ih =>
    by_cases h : n = 0
    · subst h; simp [natToB58_zero]
    · rw [natToB58_pos n h]
      by_cases hq : n / 58 = 0
      · right
        have hmod : n % 58 = n := by omega
        simp [hq, natToB58_zero, hmod, h]
      · have hlt : n / 58 < n := Nat.div_lt_self (Nat.pos_of_ne_zero h) (by omega)
        rcases ih (n / 58) hlt with hnone | ⟨d, hd, hdne⟩
        · exfalso
          rw [natToB58_pos (n / 58) hq] at hnone
          cases hempty : natToB58 (n / 58 / 58) ++ [n / 58 % 58] with
          | nil => simp at hempty
          | cons x xs => rw [hempty] at hnone; simp at hnone
        · right
          refine ⟨d, ?_, hdne⟩
          rw [List.head?_append_of_ne_nil]
          · exact hd
          · intro hnil; rw [hnil] at hd; simp at hd

/-! ### Base-58 alphabet

Modelled from the spec: the Base58 alphabet excludes the ambiguous glyphs
0, O, I, l; digits map positionally into this character table. -/

/-- The 58-character Base58 alphabet. -/
def b58Alphabet : List Char :=
  "123456789ABCDEFGHJKLMNPQRSTUVWXYZabcdefghijkmnopqrstuvwxyz".toList

/-- Character for a base-58 digit. -/
def b58DigitChar (d : Nat) : Char :=
  b58Alphabet.getD d ' '

/-- Digit for a Base58 character, `none` for a character outside the
alphabet. -/
def b58CharDigit (c : Char) : Option Nat :=
  b58Alphabet.indexOf? c

theorem b58CharDigit_b58DigitChar (d : Nat) (h : d < 58) :
    b58CharDigit (b58DigitChar d) = some d := by
  interval_cases d <;> rfl

theorem b58DigitChar_ne_one (d : Nat) (h1 : d ≠ 0) (h2 : d < 58) :
    b58DigitChar d ≠ '1' := by
  interval_cases d <;> first | omega | decide

/-! ### SHA-256

Modelled from the spec: the raw hashing primitive SHA-256 is an external
collaborator of this layer (FIPS 180-4); it is embedded here executably
because Base58Check checksums and HASH160 digests are built from it. -/

/-- Truncation to a 32-bit word. -/
def w32 (n : Nat) : Nat := n % 4294967296

/-- 32-bit right rotation. -/
def rotr32 (x n : Nat) : Nat := w32 ((x >>> n) ||| (x <<< (32 - n)))

def shaK : List Nat := [
  1116352408, 1899447441, 3049323471, 3921009573, 961987163, 1508970993,
  2453635748, 2870763221, 3624381080, 310598401, 607225278, 1426881987,
  1925078388, 2162078206, 2614888103, 3248222580, 3835390401, 4022224774,
  264347078, 604807628, 770255983, 1249150122, 1555081692, 1996064986,
  2554220882, 2821834349, 2952996808, 3210313671, 3336571891, 3584528711,
  113926993, 338241895, 666307205, 773529912, 1294757372, 1396182291,
  1695183700, 1986661051, 2177026350, 2456956037, 2730485921, 2820302411,
  3259730800, 3345764771, 3516065817, 3600352804, 4094571909, 275423344,
  430227734, 506948616, 659060556, 883997877, 958139571, 1322822218,
  1537002063, 1747873779, 1955562222, 2024104815, 2227730452, 2361852424,
  2428436474, 2756734187, 3204031479, 3329325298]

def shaH0 : List Nat := [
  1779033703, 3144134277, 1013904242, 2773480762,
  1359893119, 2600822924, 528734635, 1541459225]

/-- Big-endian 4-byte groups to 32-bit words. -/
def bytesToWords32 : List Nat → List Nat
  | b0 :: b1 :: b2 :: b3 :: rest =>
    (((b0 * 256 + b1) * 256 + b2) * 256 + b3) :: bytesToWords32 rest
  | _ => []

/-- SHA-256 padding: append 0x80, zero bytes, and the 8-byte big-endian
bit length, reaching a multiple of 64 bytes. -/
def sha256Pad (msg : List Nat) : List Nat :=
  let padLen := (64 - (msg.length + 9) % 64) % 64
  msg ++ [0x80] ++ List.replicate padLen 0 ++ natToBytesBE 8 (msg.length * 8)

def shaSSig0 (x : Nat) : Nat := rotr32 x 7 ^^^ rotr32 x 18 ^^^ (x >>> 3)
def shaSSig1 (x : Nat) : Nat := rotr32 x 17 ^^^ rotr32 x 19 ^^^ (x >>> 10)
def shaBSig0 (x : Nat) : Nat := rotr32 x 2 ^^^ rotr32 x 13 ^^^ rotr32 x 22
def shaBSig1 (x : Nat) : Nat := rotr32 x 6 ^^^ rotr32 x 11 ^^^ rotr32 x 25

/-- Message-schedule extension: append `fuel` further words. -/
def shaExtend : Nat → List Nat → List Nat
  | 0, ws => ws
  | fuel + 1, ws =>
    let i := ws.length
    let wNew := w32 (shaSSig1 (ws.getD (i - 2) 0) + ws.getD (i - 7) 0 +
      shaSSig0 (ws.getD (i - 15) 0) + ws.getD (i - 16) 0)
    shaExtend fuel (ws ++ [wNew])

/-- One SHA-256 round on the 8-word state. -/
def shaRound (st : List Nat) (ki : Nat) (wi : Nat) : List Nat :=
  match st with
  | [a, b, c, d, e, f, g, h] =>
    let ch := (e &&& f) ^^^ ((e ^^^ 0xffffffff) &&& g)
    let maj := (a &&& b) ^^^ (a &&& c) ^^^ (b &&& c)
    let t1 := w32 (h + shaBSig1 e + ch + ki + wi)
    let t2 := w32 (shaBSig0 a + maj)
    [w32 (t1 + t2), a, b, c, w32 (d + t1), e, f, g]
  | other => other

/-- Compression of one 64-byte block into the running state. -/
def shaCompress (st : List Nat) (block : List Nat) : List Nat :=
  let ws := shaExtend 48 (bytesToWords32 block)
  let st2 := (shaK.zip ws).foldl (fun s kw => shaRound s kw.1 kw.2) st
  List.zipWith (fun x y => w32 (x + y)) st st2

/-- Split into `k`-byte chunks, with structural fuel (always called
with the list length as fuel). -/
def chunksAux (k : Nat) : Nat → List Nat → List (List Nat)
  | 0, _ => []
  | fuel + 1, bs => if bs = [] then [] else bs.take k :: chunksAux k fuel (bs.drop k)

/-- Split a byte list into 64-byte chunks. -/
def chunks64 (bs : List Nat) : List (List Nat) :=
  chunksAux 64 bs.length bs

/-- Big-endian serialization of 32-bit words to bytes. -/
def wordsToBytesBE (ws : List Nat) : List Nat :=
  (ws.map (natToBytesBE 4)).join

/-- SHA-256 digest (32 bytes) of a byte list. -/
def sha256 (msg : List Nat) : List Nat :=
  wordsToBytesBE ((chunks64 (sha256Pad msg)).foldl shaCompress shaH0)

theorem sha256_lt (msg : List Nat) : ∀ b ∈ sha256 msg, b < 256 := by
  intro b hb
  simp only [sha256, wordsToBytesBE] at hb
  rcases List.mem_join.mp hb with ⟨l, hl, hbl⟩
  rcases List.mem_map.mp hl with ⟨w, _, rfl⟩
  exact natToBytesBE_lt 4 w b hbl

/-! ### RIPEMD-160 and HASH160

Modelled from the spec: HASH160 = RIPEMD160 of SHA256; RIPEMD-160 itself
is an external collaborator, embedded executably (ISO/IEC 10118-3). -/

/-- 32-bit left rotation. -/
def rolc (x n : Nat) : Nat := w32 ((x <<< n) ||| (x >>> (32 - n)))

/-- Little-endian 4-byte groups to 32-bit words. -/
def bytesToWords32LE : List Nat → List Nat
  | b0 :: b1 :: b2 :: b3 :: rest =>
    (((b3 * 256 + b2) * 256 + b1) * 256 + b0) :: bytesToWords32LE rest
  | _ => []

/-- Fixed-width little-endian byte serialization. -/
def natToBytesLE : Nat → Nat → List Nat
  | 0, _ => []
  | k + 1, n => n % 256 :: natToBytesLE k (n / 256)

def rmdH0 : List Nat := [0x67452301, 0xefcdab89, 0x98badcfe, 0x10325476, 0xc3d2e1f0]

def rmdKL : List Nat := [0, 0x5a827999, 0x6ed9eba1, 0x8f1bbcdc, 0xa953fd4e]

def rmdKR : List Nat := [0x50a28be6, 0x5c4dd124, 0x6d703ef3, 0x7a6d76e9, 0]

def rmdRL : List Nat := [
  0, 1, 2, 3, 4, 5, 6, 7, 8, 9, 10, 11, 12, 13, 14, 15,
  7, 4, 13, 1, 10, 6, 15, 3, 12, 0, 9, 5, 2, 14, 11, 8,
  3, 10, 14, 4, 9, 15, 8, 1, 2, 7, 0, 6, 13, 11, 5, 12,
  1, 9, 11, 10, 0, 8, 12, 4, 13, 3, 7, 15, 14, 5, 6, 2,
  4, 0, 5, 9, 7, 12, 2, 10, 14, 1, 3, 8, 11, 6, 15, 13]

def rmdRR : List Nat := [
  5, 14, 7, 0, 9, 2, 11, 4, 13, 6, 15, 8, 1, 10, 3, 12,
  6, 11, 3, 7, 0, 13, 5, 10, 14, 15, 8, 12, 4, 9, 1, 2,
  15, 5, 1, 3, 7, 14, 6, 9, 11, 8, 12, 2, 10, 0, 4, 13,
  8, 6, 4, 1, 3, 11, 15, 0, 5, 12, 2, 13, 9, 7, 10, 14,
  12, 15, 10, 4, 1, 5, 8, 7, 6, 2, 13, 14, 0, 3, 9, 11]

def rmdSL : List Nat := [
  11, 14, 15, 12, 5, 8, 7, 9, 11, 13, 14, 15, 6, 7, 9, 8,
  7, 6, 8, 13, 11, 9, 7, 15, 7, 12, 15, 9, 11, 7, 13, 12,
  11, 13, 6, 7, 14, 9, 13, 15, 14, 8, 13, 6, 5, 12, 7, 5,
  11, 12, 14, 15, 14, 15, 9, 8, 9, 14, 5, 6, 8, 6, 5, 12,
  9, 15, 5, 11, 6, 8, 13, 12, 5, 12, 13, 14, 11, 8, 5, 6]

def rmdSR : List Nat := [
  8, 9, 9, 11, 13, 15, 15, 5, 7, 7, 8, 11, 14, 14, 12, 6,
  9, 13, 15, 7, 12, 8, 9, 11, 7, 7, 12, 7, 6, 15, 13, 11,
  9, 7, 15, 11, 8, 6, 6, 14, 12, 13, 5, 14, 13, 13, 7, 5,
  15, 5, 8, 11, 14, 14, 6, 14, 6, 9, 12, 9, 12, 5, 15, 8,
  8, 5, 12, 9, 12, 5, 14, 6, 8, 13, 6, 5, 15, 13, 11, 11]

/-- RIPEMD-160 round selection function. -/
def rmdF (j x y z : Nat) : Nat :=
  if j < 16 then x ^^^ y ^^^ z
  else if j < 32 then (x &&& y) ||| ((x ^^^ 0xffffffff) &&& z)
  else if j < 48 then (x ||| (y ^^^ 0xffffffff)) ^^^ z
  else if j < 64 then (x &&& z) ||| (y &&& (z ^^^ 0xffffffff))
  else x ^^^ (y ||| (z ^^^ 0xffffffff))

/-- One RIPEMD-160 round on one of the two parallel lines. -/
def rmdLineStep (xw : List Nat) (left : Bool) (st : List Nat) (j : Nat) : List Nat :=
  match st with
  | [a, b, c, d, e] =>
    let fv := if left then rmdF j b c d else rmdF (79 - j) b c d
    let k := if left then rmdKL.getD (j / 16) 0 else rmdKR.getD (j / 16) 0
    let r := if left then rmdRL.getD j 0 else rmdRR.getD j 0
    let s := if left then rmdSL.getD j 0 else rmdSR.getD j 0
    let t := w32 (rolc (w32 (a + fv + xw.getD r 0 + k)) s + e)
    [e, t, b, rolc c 10, d]
  | other => other

/-- Compression of one 64-byte block into the 5-word state. -/
def rmdCompress (st : List Nat) (block : List Nat) : List Nat :=
  let xw := bytesToWords32LE block
  match st with
  | [h0, h1, h2, h3, h4] =>
    let lft := (List.range 80).foldl (rmdLineStep xw true) st
    let rgt := (List.range 80).foldl (rmdLineStep xw false) st
    match lft, rgt with
    | [al, bl, cl, dl, el], [ar, br, cr, dr, er] =>
      [w32 (h1 + cl + dr), w32 (h2 + dl + er), w32 (h3 + el + ar),
       w32 (h4 + al + br), w32 (h0 + bl + cr)]
    | _, _ => st
  | other => other

/-- RIPEMD-160 padding: like SHA-256 but the bit length is appended
little-endian. -/
def rmdPad (msg : List Nat) : List Nat :=
  let padLen := (64 - (msg.length + 9) % 64) % 64
  msg ++ [0x80] ++ List.replicate padLen 0 ++ natToBytesLE 8 (msg.length * 8)

/-- Little-endian serialization of 32-bit words to bytes. -/
def wordsToBytesLE (ws : List Nat) : List Nat :=
  (ws.map (natToBytesLE 4)).join

/-- RIPEMD-160 digest (20 bytes) of a byte list. -/
def ripemd160 (msg : List Nat) : List Nat :=
  wordsToBytesLE ((chunks64 (rmdPad msg)).foldl rmdCompress rmdH0)

/-- HASH160 = RIPEMD160 of SHA256, mirroring `btclib.utils.hash160`. -/
def hash160 (bs : List Nat) : List Nat :=
  ripemd160 (sha256 bs)

theorem natToBytesLE_lt (k n : Nat) : ∀ b ∈ natToBytesLE k n, b < 256 := by
  induction k generalizing n with
  | zero => simp [natToBytesLE]
  | succ k ih =>
    intro b hb
    rw [natToBytesLE] at hb
    rcases List.mem_cons.mp hb with h | h
    · omega
    · exact ih _ _ h

theorem ripemd160_lt (msg : List Nat) : ∀ b ∈ ripemd160 msg, b < 256 := by
  intro b hb
  simp only [ripemd160, wordsToBytesLE] at hb
  rcases List.mem_join.mp hb with ⟨l, hl, hbl⟩
  rcases List.mem_map.mp hl with ⟨w, _, rfl⟩
  exact natToBytesLE_lt 4 w b hbl

theorem hash160_lt (bs : List Nat) : ∀ b ∈ hash160 bs, b < 256 :=
  ripemd160_lt (sha256 bs)

/-! ### Typed errors -/

/-- Typed error, mirroring `BTClibValueError` with its message. -/
inductive BErr where
  | valueError (msg : String)
deriving DecidableEq, Repr

end Btclib

deriving instance DecidableEq for Except

namespace Btclib

/-! ### Base58Check codec

Modelled from the spec: `b58encode(payload)` is
base58-alphabet(payload followed by first4(doubleSHA256(payload)));
decode strips surrounding whitespace, verifies the 4-byte checksum and,
if an expected length is given, the decoded length.  Leading zero bytes
map to leading 1 characters and back. -/

/-- First four bytes of the double SHA-256 of the payload. -/
def checksum4 (bs : List Nat) : List Nat :=
  (sha256 (sha256 bs)).take 4

/-- Raw base-58 encoding without checksum. -/
def b58encodeNoCheck (bs : List Nat) : List Char :=
  List.replicate (countLeadingZeros bs) '1' ++ (natToB58 (bytesToNat bs)).map b58DigitChar

/-- Base58Check encoding: payload plus 4-byte double-SHA-256 checksum. -/
def b58encode (bs : List Nat) : List Char :=
  b58encodeNoCheck (bs ++ checksum4 bs)

/-- Number of leading 1 characters. -/
def countLeadingOnes : List Char → Nat
  | [] => 0
  | c :: cs => if c = '1' then countLeadingOnes cs + 1 else 0

/-- Strip surrounding whitespace, mirroring `str.strip()`. -/
def stripChars (cs : List Char) : List Char :=
  ((cs.dropWhile Char.isWhitespace).reverse.dropWhile Char.isWhitespace).reverse

/-- Raw base-58 decoding without checksum: every character must be in the
alphabet; the accumulated value is serialized minimally with one zero
byte per leading 1 character. -/
def b58decodeNoCheck (cs : List Char) : Option (List Nat) :=
  (cs.mapM b58CharDigit).map (fun ds =>
    List.replicate (countLeadingOnes cs) 0 ++ natToBytesMin (b58ToNat ds))

/-- Base58Check decoding with optional expected payload size. -/
def b58decode (cs : List Char) (outSize : Option Nat) : Except BErr (List Nat) :=
  let s := stripChars cs
  match b58decodeNoCheck s with
  | none => .error (.valueError "not a base58 string: ")
  | some full =>
    if full.length < 4 then
      .error (.valueError "not enough bytes for checksum: ")
    else
      let data := full.take (full.length - 4)
      let cksum := full.drop (full.length - 4)
      if checksum4 data = cksum then
        match outSize with
        | none => .ok data
        | some sz =>
          if data.length = sz then .ok data
          else .error (.valueError "valid checksum, invalid decoded size: ")
      else .error (.valueError "invalid checksum: ")

theorem dropWhile_dropWhile {α : Type} (p : α → Bool) (l : List α) :
    (l.dropWhile p).dropWhile p = l.dropWhile p := by
  induction l with
  | nil => simp
  | cons a l ih =>
    by_cases h : p a
    · simp [List.dropWhile_cons, h, ih]
    · simp [List.dropWhile_cons, h]

theorem dropWhile_of_head {α : Type} (p : α → Bool) (l : List α)
    (h : ∀ a, l.head? = some a → p a = false) : l.dropWhile p = l := by
  cases l with
  | nil => simp
  | cons a l => simp [List.dropWhile_cons, h a rfl]

theorem stripChars_idem (cs : List Char) : stripChars (stripChars cs) = stripChars cs := by
  unfold stripChars
  set p := Char.isWhitespace
  set x := cs.dropWhile p with hx
  -- the right strip is a prefix of x, so its head still fails p
  have hpre : ((x.reverse.dropWhile p).reverse) <+: x := by
    have hsuf : x.reverse.dropWhile p <:+ x.reverse := List.dropWhile_suffix p
    have h2 := List.reverse_prefix.mpr hsuf
    simpa using h2
  obtain ⟨t, ht⟩ := hpre
  have hhead : ∀ a, ((x.reverse.dropWhile p).reverse).head? = some a → p a = false := by
    intro a ha
    have hxa : x.head? = some a := by
      rw [← ht]
      rw [List.head?_append_of_ne_nil]
      · exact ha
      · intro hnil; rw [hnil] at ha; simp at ha
    have : x.dropWhile p = x := dropWhile_dropWhile p cs
    cases hc : x with
    | nil => rw [hc] at hxa; simp at hxa
    | cons b l =>
      rw [hc] at hxa; simp at hxa
      by_contra hp
      have hp2 : p b = true := by
        rw [hxa]
        simpa using hp
      rw [hc] at this
      rw [List.dropWhile_cons, hp2] at this
      have hlen := congrArg List.length this
      simp at hlen
      have hle := (List.dropWhile_suffix (l := l) p).length_le
      omega
  rw [dropWhile_of_head p _ hhead, List.reverse_reverse, dropWhile_dropWhile]

theorem stripChars_of_no_ws (cs : List Char) (h : ∀ c ∈ cs, c.isWhitespace = false) :
    stripChars cs = cs := by
  have h1 : cs.dropWhile Char.isWhitespace = cs := by
    apply dropWhile_of_head
    intro a ha
    exact h a (List.mem_of_mem_head? (by simp [ha]))
  have h2 : cs.reverse.dropWhile Char.isWhitespace = cs.reverse := by
    apply dropWhile_of_head
    intro a ha
    apply h
    have : a ∈ cs.reverse := List.mem_of_mem_head? (by simp [ha])
    simpa using this
  unfold stripChars
  rw [h1, h2, List.reverse_reverse]

/-! ### SHA-256 digest length -/

theorem shaRound_length (st : List Nat) (ki wi : Nat) (h : st.length = 8) :
    (shaRound st ki wi).length = 8 := by
  unfold shaRound
  split
  · simp
  · exact h

theorem shaRounds_length (l : List (Nat × Nat)) (st : List Nat) (h : st.length = 8) :
    (l.foldl (fun s kw => shaRound s kw.1 kw.2) st).length = 8 := by
  induction l generalizing st with
  | nil => simpa
  | cons kw l ih => exact ih _ (shaRound_length st kw.1 kw.2 h)

theorem shaCompress_length (st block : List Nat) (h : st.length = 8) :
    (shaCompress st block).length = 8 := by
  unfold shaCompress
  rw [List.length_zipWith, h, shaRounds_length _ _ h]
  simp

theorem shaFold_length (blocks : List (List Nat)) (st : List Nat) (h : st.length = 8) :
    (blocks.foldl shaCompress st).length = 8 := by
  induction blocks generalizing st with
  | nil => simpa
  | cons b blocks ih => exact ih _ (shaCompress_length st b h)

theorem wordsToBytesBE_length (ws : List Nat) :
    (wordsToBytesBE ws).length = 4 * ws.length := by
  unfold wordsToBytesBE
  induction ws with
  | nil => simp
  | cons w ws ih =>
    simp only [List.map_cons, List.join_cons, List.length_append, ih,
      natToBytesBE_length, List.length_cons]
    ring

theorem sha256_length (msg : List Nat) : (sha256 msg).length = 32 := by
  unfold sha256
  rw [wordsToBytesBE_length, shaFold_length]
  rfl

theorem checksum4_length (bs : List Nat) : (checksum4 bs).length = 4 := by
  unfold checksum4
  rw [List.length_take, sha256_length]
  simp

/-! ### Base58Check round trip -/

theorem b58DigitChar_no_ws (d : Nat) (h : d < 58) :
    (b58DigitChar d).isWhitespace = false := by
  interval_cases d <;> decide

theorem b58encodeNoCheck_no_ws (bs : List Nat) :
    ∀ c ∈ b58encodeNoCheck bs, c.isWhitespace = false := by
  intro c hc
  unfold b58encodeNoCheck at hc
  rcases List.mem_append.mp hc with h | h
  · have := List.eq_of_mem_replicate h
    subst this; decide
  · rcases List.mem_map.mp h with ⟨d, hd, rfl⟩
    exact b58DigitChar_no_ws d (natToB58_digits_lt _ d hd)

theorem mapM_b58CharDigit_ones (z : Nat) (rest : List Char) :
    (List.replicate z '1' ++ rest).mapM b58CharDigit =
      (rest.mapM b58CharDigit).map (fun ds => List.replicate z 0 ++ ds) := by
  induction z with
  | zero =>
    simp only [List.replicate, List.nil_append]
    cases rest.mapM b58CharDigit with
    | none => rfl
    | some ds => rfl
  | succ z ih =>
    rw [List.replicate_succ]
    simp only [List.cons_append, List.mapM_cons]
    have h1 : b58CharDigit '1' = some 0 := rfl
    rw [h1, ih]
    cases rest.mapM b58CharDigit with
    | none => rfl
    | some ds => simp [List.replicate_succ]

theorem mapM_b58CharDigit_map (ds : List Nat) (h : ∀ d ∈ ds, d < 58) :
    (ds.map b58DigitChar).mapM b58CharDigit = some ds := by
  induction ds with
  | nil => rfl
  | cons d ds ih =>
    simp only [List.map_cons, List.mapM_cons]
    rw [b58CharDigit_b58DigitChar d (h d (by simp)),
      ih (fun x hx => h x (by simp [hx]))]
    rfl

theorem countLeadingOnes_replicate_append (z : Nat) (rest : List Char)
    (h : ∀ c, rest.head? = some c → c ≠ '1') :
    countLeadingOnes (List.replicate z '1' ++ rest) = z := by
  induction z with
  | zero =>
    simp only [List.replicate, List.nil_append]
    cases rest with
    | nil => rfl
    | cons c cs =>
      have := h c rfl
      simp [countLeadingOnes, this]
  | succ z ih =>
    rw [List.replicate_succ]
    simp [countLeadingOnes, ih]

theorem b58ToNat_replicate_zero (z : Nat) (ds : List Nat) :
    b58ToNat (List.replicate z 0 ++ ds) = b58ToNat ds := by
  induction z with
  | zero => simp
  | succ z ih =>
    rw [List.replicate_succ]
    simpa [b58ToNat, List.foldl] using ih

theorem bytesToNat_replicate_zero (z : Nat) (bs : List Nat) :
    bytesToNat (List.replicate z 0 ++ bs) = bytesToNat bs := by
  induction z with
  | zero => simp
  | succ z ih =>
    rw [List.replicate_succ]
    simpa [bytesToNat, List.foldl] using ih

theorem countLeadingZeros_decomp (bs : List Nat) :
    bs = List.replicate (countLeadingZeros bs) 0 ++ bs.drop (countLeadingZeros bs) ∧
      ((bs.drop (countLeadingZeros bs)).head? = none ∨
        ∃ b, (bs.drop (countLeadingZeros bs)).head? = some b ∧ b ≠ 0) := by
  induction bs with
  | nil => simp [countLeadingZeros]
  | cons b bs ih =>
    by_cases h : b = 0
    · subst h
      have hcl : countLeadingZeros (0 :: bs) = countLeadingZeros bs + 1 := by
        simp [countLeadingZeros]
      rw [hcl]
      obtain ⟨ih1, ih2⟩ := ih
      constructor
      · rw [List.replicate_succ, List.drop_succ_cons]
        conv_lhs => rw [ih1]
        simp
      · rw [List.drop_succ_cons]
        exact ih2
    · simp [countLeadingZeros, h]

/-- Round trip of the raw base-58 codec on byte lists. -/
theorem b58decodeNoCheck_b58encodeNoCheck (bs : List Nat) (hlt : ∀ b ∈ bs, b < 256) :
    b58decodeNoCheck (b58encodeNoCheck bs) = some bs := by
  obtain ⟨hdec, hhd⟩ := countLeadingZeros_decomp bs
  set z := countLeadingZeros bs with hz
  set rest := bs.drop z with hrest
  have hveq : bytesToNat bs = bytesToNat rest := by
    conv_lhs => rw [hdec]
    exact bytesToNat_replicate_zero z rest
  unfold b58decodeNoCheck b58encodeNoCheck
  rw [mapM_b58CharDigit_ones, mapM_b58CharDigit_map _ (natToB58_digits_lt _)]
  have hones : countLeadingOnes (List.replicate z '1' ++
      (natToB58 (bytesToNat bs)).map b58DigitChar) = z := by
    apply countLeadingOnes_replicate_append
    intro c hc
    rcases natToB58_head_ne_zero (bytesToNat bs) with hn | ⟨d, hd, hdne⟩
    · rw [List.head?_map, hn] at hc
      simp at hc
    · rw [List.head?_map, hd] at hc
      simp at hc
      rw [← hc]
      have hdm : d ∈ natToB58 (bytesToNat bs) :=
        List.mem_of_mem_head? (by simp [hd])
      exact b58DigitChar_ne_one d hdne (natToB58_digits_lt (bytesToNat bs) d hdm)
  rw [hones]
  simp only [Option.map_some']
  congr 1
  rw [b58ToNat_replicate_zero, b58ToNat_natToB58, hveq,
    natToBytesMin_bytesToNat rest ?_ hhd]
  · exact hdec.symm
  · intro b hb
    exact hlt b (by rw [hdec]; exact List.mem_append_right _ hb)

theorem checksum4_lt (bs : List Nat) : ∀ b ∈ checksum4 bs, b < 256 := by
  intro b hb
  exact sha256_lt (sha256 bs) b (List.mem_of_mem_take hb)

/-- Base58Check round trip: decoding an encoded payload (with matching
expected size, or none) returns the payload. -/
theorem b58decode_b58encode (bs : List Nat) (hlt : ∀ b ∈ bs, b < 256)
    (sz : Option Nat) (hsz : sz = none ∨ sz = some bs.length) :
    b58decode (b58encode bs) sz = .ok bs := by
  have hfull : ∀ b ∈ bs ++ checksum4 bs, b < 256 := by
    intro b hb
    rcases List.mem_append.mp hb with h | h
    · exact hlt b h
    · exact checksum4_lt bs b h
  have hstrip : stripChars (b58encode bs) = b58encode bs :=
    stripChars_of_no_ws _ (b58encodeNoCheck_no_ws _)
  have hlen : (bs ++ checksum4 bs).length = bs.length + 4 := by
    rw [List.length_append, checksum4_length]
  unfold b58decode
  rw [hstrip]
  unfold b58encode
  simp only [b58decodeNoCheck_b58encodeNoCheck _ hfull, hlen]
  rw [if_neg (by omega)]
  have htake : (bs ++ checksum4 bs).take (bs.length + 4 - 4) = bs := by
    simp [List.take_left']
  have hdrop : (bs ++ checksum4 bs).drop (bs.length + 4 - 4) = checksum4 bs := by
    simp [List.drop_left']
  rw [htake, hdrop, if_pos rfl]
  rcases hsz with rfl | rfl
  · rfl
  · simp

/-! ### Network parameter registry

Modelled from the spec: static read-only table per network name of
version/prefix bytes and bech32 prefixes; illustrative table mainnet
(p2pkh 0x00, p2sh 0x05, wif 0x80, hrp bc) and testnet (p2pkh 0x6f,
p2sh 0xc4, wif 0xef, hrp tb); the private-key scalar bound is the
secp256k1 curve order. -/

/-- secp256k1 group order. -/
def secp256k1N : Nat :=
  0xFFFFFFFFFFFFFFFFFFFFFFFFFFFFFFFEBAAEDCE6AF48A03BBFD25E8CD0364141

/-- Per-network version bytes and bech32 prefix. -/
structure NetworkParams where
  p2pkh : Nat
  p2sh : Nat
  wif : Nat
  hrp : List Char
deriving DecidableEq, Repr

def NETWORKS : List (String × NetworkParams) :=
  [("mainnet", ⟨0x00, 0x05, 0x80, "bc".toList⟩),
   ("testnet", ⟨0x6f, 0xc4, 0xef, "tb".toList⟩)]

/-- Registry lookup by network name. -/
def networkParams (net : String) : Option NetworkParams :=
  NETWORKS.lookup net

/-- The single-byte value of one registered prefix kind. -/
def keyFieldValue (kind : String) (p : NetworkParams) : Option (List Nat) :=
  if kind = "p2pkh" then some [p.p2pkh]
  else if kind = "p2sh" then some [p.p2sh]
  else if kind = "wif" then some [p.wif]
  else none

/-- Reverse lookup: first network whose `kind` prefix equals `pfx`,
mirroring `network_from_key_value`. -/
def network_from_key_value (kind : String) (pfx : List Nat) : Option String :=
  (NETWORKS.find? (fun np => keyFieldValue kind np.2 = some pfx)).map (fun np => np.1)

/-! ### Script command codec

Modelled from the spec: named opcodes / small integers become a single
byte; byte pushes up to 75 bytes use a direct length byte; larger pushes
use the minimal of PUSHDATA1 / PUSHDATA2 / PUSHDATA4. -/

/-- One script token: a small integer literal, a raw byte push, or a
named opcode given by its byte. -/
inductive Command where
  | num (n : Nat)
  | push (bs : List Nat)
  | op (code : Nat)
deriving DecidableEq, Repr

/-- Canonical push encoding of a byte string. -/
def pushData (bs : List Nat) : List Nat :=
  if bs.length ≤ 75 then bs.length :: bs
  else if bs.length ≤ 255 then 0x4c :: bs.length :: bs
  else if bs.length ≤ 65535 then 0x4d :: natToBytesLE 2 bs.length ++ bs
  else 0x4e :: natToBytesLE 4 bs.length ++ bs

/-- Serialization of one command. -/
def serializeCmd : Command → List Nat
  | .num n =>
    if n = 0 then [0x00]
    else if n ≤ 16 then [0x50 + n]
    else pushData (natToBytesLE ((Nat.log2 n + 8) / 8) n)
  | .op code => [code]
  | .push bs => pushData bs

/-- Serialization of a command sequence to wire bytes. -/
def serialize (cmds : List Command) : List Nat :=
  (cmds.map serializeCmd).join

/-! ### ScriptPubKey template engine

Modelled from the spec: classification matches the byte string against
the templates p2pk, p2pkh, p2sh, p2wpkh, p2wsh, p2ms, nulldata in fixed
priority order; no match gives `unknown` with the full bytes as payload;
matching is fail-closed.  Builders validate payloads and fail with a
typed error.  Structural details (exact length markers, payload slices,
nulldata length gap at 78 bytes, p2ms key-push markers in 33/65) are
pinned by the repository test suite `tests/script/test_script_pub_key.py`. -/

/-- Closed script-type tag. -/
inductive ScriptType where
  | p2pk | p2pkh | p2sh | p2wpkh | p2wsh | p2ms | nulldata | unknown
deriving DecidableEq, Repr

/-- p2pk template: push-length marker 33 or 65, matching total length,
final OP_CHECKSIG. -/
def is_p2pk (s : List Nat) : Bool :=
  decide ((s.getD 0 0 = 33 ∨ s.getD 0 0 = 65) ∧ s.length = s.getD 0 0 + 2 ∧
    s.getLast? = some 0xac)

/-- p2pkh template: OP_DUP OP_HASH160 push20 hash OP_EQUALVERIFY OP_CHECKSIG. -/
def is_p2pkh (s : List Nat) : Bool :=
  decide (s.length = 25 ∧ s.getD 0 0 = 0x76 ∧ s.getD 1 0 = 0xa9 ∧ s.getD 2 0 = 0x14 ∧
    s.getD 23 0 = 0x88 ∧ s.getD 24 0 = 0xac)

/-- p2sh template: OP_HASH160 push20 hash OP_EQUAL. -/
def is_p2sh (s : List Nat) : Bool :=
  decide (s.length = 23 ∧ s.getD 0 0 = 0xa9 ∧ s.getD 1 0 = 0x14 ∧
    s.getLast? = some 0x87)

/-- p2wpkh template: OP_0 push20 hash. -/
def is_p2wpkh (s : List Nat) : Bool :=
  decide (s.length = 22 ∧ s.getD 0 0 = 0x00 ∧ s.getD 1 0 = 0x14)

/-- p2wsh template: OP_0 push32 hash. -/
def is_p2wsh (s : List Nat) : Bool :=
  decide (s.length = 34 ∧ s.getD 0 0 = 0x00 ∧ s.getD 1 0 = 0x20)

/-- Key-push parser with structural fuel (always called with the list
length as fuel, which bounds the recursion depth). -/
def p2msKeysOkAux : Nat → List Nat → Nat → Bool
  | _, [], n => n == 0
  | 0, _ :: _, _ => false
  | _ + 1, _ :: _, 0 => false
  | fuel + 1, l :: rest, n + 1 =>
    ((l == 33) || (l == 65)) && decide (l ≤ rest.length) &&
      p2msKeysOkAux fuel (rest.drop l) n

/-- Check that `bs` is exactly `n` canonical key pushes, each with
length marker 33 or 65. -/
def p2msKeysOk (bs : List Nat) (n : Nat) : Bool :=
  p2msKeysOkAux bs.length bs n

/-- p2ms template: OP_m, n canonical key pushes, OP_n, OP_CHECKMULTISIG,
with 1 ≤ m ≤ n ≤ 16. -/
def is_p2ms (s : List Nat) : Bool :=
  match s.getLast? with
  | some 0xae =>
    let m := s.getD 0 0 - 80
    let n := s.getD (s.length - 2) 0 - 80
    decide (1 ≤ m ∧ m ≤ 16) && decide (m ≤ n ∧ n ≤ 16) &&
      p2msKeysOk ((s.drop 1).take (s.length - 3)) n
  | _ => false

/-- nulldata template: OP_RETURN then one canonical push of at most 80
bytes (direct push below 76 bytes, PUSHDATA1 above); the embedded length
byte must match the actual length. -/
def is_nulldata (s : List Nat) : Bool :=
  if s.length < 78 then
    decide (1 < s.length ∧ s.getD 0 0 = 0x6a ∧ s.getD 1 0 = s.length - 2)
  else
    decide (78 < s.length ∧ s.length < 84 ∧ s.getD 0 0 = 0x6a ∧ s.getD 1 0 = 0x4c ∧
      s.getD 2 0 = s.length - 3)

/-- Payload slice of a nulldata script. -/
def nulldataPayload (s : List Nat) : List Nat :=
  if s.length < 78 then s.drop 2 else s.drop 3

/-- Classification: first matching template in fixed priority order, or
`unknown` with the full script bytes as payload.  Total — never fails. -/
def type_and_payload (s : List Nat) : ScriptType × List Nat :=
  if is_p2pk s then (.p2pk, (s.drop 1).dropLast)
  else if is_p2pkh s then (.p2pkh, (s.drop 3).take (s.length - 5))
  else if is_p2sh s then (.p2sh, (s.drop 2).dropLast)
  else if is_p2wpkh s then (.p2wpkh, s.drop 2)
  else if is_p2wsh s then (.p2wsh, s.drop 2)
  else if is_p2ms s then (.p2ms, s.dropLast)
  else if is_nulldata s then (.nulldata, nulldataPayload s)
  else (.unknown, s)

/-- Valid serialized public key: 33 bytes with marker 2 or 3, or
65 bytes with marker 4. -/
def validKeyBytes (k : List Nat) : Bool :=
  decide ((k.length = 33 ∧ (k.getD 0 0 = 2 ∨ k.getD 0 0 = 3)) ∨
    (k.length = 65 ∧ k.getD 0 0 = 4))

/-- Builder from template and payload, mirroring
`ScriptPubKey.from_type_and_payload`. -/
def from_type_and_payload (t : ScriptType) (payload : List Nat) :
    Except BErr (List Nat) :=
  match t with
  | .p2pk =>
    if validKeyBytes payload then .ok (pushData payload ++ [0xac])
    else .error (.valueError "not a private or public key: ")
  | .p2pkh =>
    if payload.length = 20 then .ok ([0x76, 0xa9, 0x14] ++ payload ++ [0x88, 0xac])
    else .error (.valueError "invalid size: ")
  | .p2sh =>
    if payload.length = 20 then .ok ([0xa9, 0x14] ++ payload ++ [0x87])
    else .error (.valueError "invalid size: ")
  | .p2wpkh =>
    if payload.length = 20 then .ok ([0x00, 0x14] ++ payload)
    else .error (.valueError "invalid size: ")
  | .p2wsh =>
    if payload.length = 32 then .ok ([0x00, 0x20] ++ payload)
    else .error (.valueError "invalid size: ")
  | .p2ms =>
    if is_p2ms (payload ++ [0xae]) then .ok (payload ++ [0xae])
    else .error (.valueError "invalid p2ms payload")
  | .nulldata =>
    if payload.length ≤ 80 then .ok (0x6a :: pushData payload)
    else .error (.valueError "invalid nulldata payload length: ")
  | .unknown => .error (.valueError "unknown ScriptPubKey type: ")

/-- Byte-lexicographic comparison used by BIP67 key sorting. -/
def listLexLe : List Nat → List Nat → Bool
  | [], _ => true
  | _ :: _, [] => false
  | a :: as, b :: bs =>
    if a < b then true else if b < a then false else listLexLe as bs

def insertLex (k : List Nat) : List (List Nat) → List (List Nat)
  | [] => [k]
  | x :: xs => if listLexLe k x then k :: x :: xs else x :: insertLex k xs

/-- Insertion sort by byte-lexicographic order. -/
def sortLex : List (List Nat) → List (List Nat)
  | [] => []
  | x :: xs => insertLex x (sortLex xs)

/-- Builder for an m-of-n multisig script, mirroring `ScriptPubKey.p2ms`:
validates 1 ≤ m ≤ 16, n ≤ 16, m ≤ n and every key, optionally sorts the
keys, then emits OP_m keys OP_n OP_CHECKMULTISIG. -/
def p2msBuild (m : Nat) (keys : List (List Nat)) (lexiSort : Bool) :
    Except BErr (List Nat) :=
  if ¬(1 ≤ m ∧ m ≤ 16) then .error (.valueError "invalid m in m-of-n: ")
  else if ¬(keys.length ≤ 16) then .error (.valueError "invalid n in m-of-n: ")
  else if ¬(m ≤ keys.length) then .error (.valueError "invalid m in m-of-n: ")
  else if ¬(keys.all validKeyBytes) then
    .error (.valueError "not a private or public key: ")
  else
    let sorted := if lexiSort then sortLex keys else keys
    .ok ([0x50 + m] ++ (sorted.map pushData).join ++ [0x50 + keys.length, 0xae])

/-! ### RIPEMD-160 digest length -/

theorem rmdLineStep_length (xw : List Nat) (lft : Bool) (st : List Nat) (j : Nat)
    (h : st.length = 5) : (rmdLineStep xw lft st j).length = 5 := by
  unfold rmdLineStep
  split
  · simp
  · exact h

theorem rmdLine_length (xw : List Nat) (lft : Bool) (l : List Nat) (st : List Nat)
    (h : st.length = 5) : (l.foldl (rmdLineStep xw lft) st).length = 5 := by
  induction l generalizing st with
  | nil => simpa
  | cons j l ih => exact ih _ (rmdLineStep_length xw lft st j h)

theorem rmdCompress_length (st block : List Nat) (h : st.length = 5) :
    (rmdCompress st block).length = 5 := by
  unfold rmdCompress
  split
  · dsimp only
    split
    · simp
    · simpa using h
  · exact h

theorem rmdFold_length (blocks : List (List Nat)) (st : List Nat) (h : st.length = 5) :
    (blocks.foldl rmdCompress st).length = 5 := by
  induction blocks generalizing st with
  | nil => simpa
  | cons b blocks ih => exact ih _ (rmdCompress_length st b h)

theorem natToBytesLE_length (k n : Nat) : (natToBytesLE k n).length = k := by
  induction k generalizing n with
  | zero => simp [natToBytesLE]
  | succ k ih => simp [natToBytesLE, ih]

theorem wordsToBytesLE_length (ws : List Nat) :
    (wordsToBytesLE ws).length = 4 * ws.length := by
  unfold wordsToBytesLE
  induction ws with
  | nil => simp
  | cons w ws ih =>
    simp only [List.map_cons, List.join_cons, List.length_append, ih,
      natToBytesLE_length, List.length_cons]
    ring

theorem ripemd160_length (msg : List Nat) : (ripemd160 msg).length = 20 := by
  unfold ripemd160
  rw [wordsToBytesLE_length, rmdFold_length]
  rfl

theorem hash160_length (bs : List Nat) : (hash160 bs).length = 20 :=
  ripemd160_length (sha256 bs)

/-! ### secp256k1 point arithmetic

Modelled from the spec: elliptic-curve point arithmetic is an external
collaborator; it is embedded executably to serialize public keys derived
from private-key integers. -/

def secpP : Nat :=
  0xFFFFFFFFFFFFFFFFFFFFFFFFFFFFFFFFFFFFFFFFFFFFFFFFFFFFFFFEFFFFFC2F

/-- Modular exponentiation by squaring. -/
def powMod (b e m : Nat) : Nat :=
  if h : e = 0 then 1 % m
  else
    let half := powMod (b * b % m) (e / 2) m
    if e % 2 = 1 then half * (b % m) % m else half
  decreasing_by exact Nat.div_lt_self (Nat.pos_of_ne_zero h) (by omega)

/-- Modular inverse in the secp256k1 base field (Fermat). -/
def invModP (a : Nat) : Nat := powMod a (secpP - 2) secpP

/-- Modular subtraction in the base field (minuend already reduced). -/
def msubP (a b : Nat) : Nat := (a + secpP - b % secpP) % secpP

/-- Affine point addition; `none` is the point at infinity. -/
def ecAdd : Option (Nat × Nat) → Option (Nat × Nat) → Option (Nat × Nat)
  | none, q => q
  | p, none => p
  | some (x1, y1), some (x2, y2) =>
    if x1 = x2 then
      if (y1 + y2) % secpP = 0 then none
      else
        let lam := 3 * x1 * x1 % secpP * invModP (2 * y1 % secpP) % secpP
        let x3 := msubP (msubP (lam * lam % secpP) x1) x2
        some (x3, msubP (lam * msubP x1 x3 % secpP) y1)
    else
      let lam := msubP y2 y1 * invModP (msubP x2 x1) % secpP
      let x3 := msubP (msubP (lam * lam % secpP) x1) x2
      some (x3, msubP (lam * msubP x1 x3 % secpP) y1)

/-- Double-and-add scalar multiplication. -/
def ecMul (k : Nat) (p : Option (Nat × Nat)) : Option (Nat × Nat) :=
  if h : k = 0 then none
  else
    let half := ecMul (k / 2) (ecAdd p p)
    if k % 2 = 1 then ecAdd half p else half
  decreasing_by exact Nat.div_lt_self (Nat.pos_of_ne_zero h) (by omega)

/-- secp256k1 generator point. -/
def secpG : Option (Nat × Nat) :=
  some (0x79BE667EF9DCBBAC55A06295CE870B07029BFCDB2DCE28D959F2815B16F81798,
        0x483ADA7726A3C4655DA4FBFC0E1108A8FD17B448A68554199C47D08FFB10D4B8)

/-- SEC serialization of the public point of a private key, mirroring
`bytes_from_point`: marker 2/3 with the x coordinate when compressed,
marker 4 with both coordinates otherwise. -/
def pubKeyBytes (q : Nat) (compressed : Bool) : List Nat :=
  match ecMul q secpG with
  | none => []
  | some (x, y) =>
    if compressed then (if y % 2 = 0 then 2 else 3) :: natToBytesBE 32 x
    else 4 :: natToBytesBE 32 x ++ natToBytesBE 32 y ++ []

/-! ### Key model and key info resolution

Modelled from the spec: collaborators ultimately supply a (private-key
integer, network, compressed flag) triple or a (public-key bytes)
value; `pub_keyinfo_from_key` resolves either to serialized public-key
bytes plus network, honoring an optional explicit compressed flag and
failing on a contradiction between the flag and the key's own form. -/

/-- A key argument: serialized public-key bytes, or private-key info
(as carried by a WIF or an extended key). -/
inductive Key where
  | pub (bs : List Nat)
  | prvInfo (q : Nat) (net : String) (compr : Bool)
deriving DecidableEq, Repr

/-- Resolve a key to (public-key bytes, network), mirroring
`pub_keyinfo_from_key`. -/
def pub_keyinfo_from_key (key : Key) (network : Option String)
    (compressed : Option Bool) : Except BErr (List Nat × String) :=
  match key with
  | .pub bs =>
    let net := network.getD "mainnet"
    if bs.length = 33 ∧ (bs.getD 0 0 = 2 ∨ bs.getD 0 0 = 3) then
      match compressed with
      | some false => .error (.valueError "not a private or uncompressed public key: ")
      | _ => .ok (bs, net)
    else if bs.length = 65 ∧ bs.getD 0 0 = 4 then
      match compressed with
      | some true => .error (.valueError "not a private or compressed public key: ")
      | _ => .ok (bs, net)
    else .error (.valueError "not a private or public key: ")
  | .prvInfo q net compr =>
    if network ≠ none ∧ network ≠ some net then
      .error (.valueError "not a private or public key: ")
    else
      match compressed with
      | some c =>
        if c ≠ compr then
          .error (.valueError (if c then "not a private or compressed public key: "
            else "not a private or uncompressed public key: "))
        else if 0 < q ∧ q < secp256k1N then .ok (pubKeyBytes q compr, net)
        else .error (.valueError "not a private or public key: ")
      | none =>
        if 0 < q ∧ q < secp256k1N then .ok (pubKeyBytes q compr, net)
        else .error (.valueError "not a private or public key: ")

/-- HASH160 of the resolved public key, mirroring `hash160_from_key`. -/
def hash160_from_key (key : Key) (network : Option String)
    (compressed : Option Bool) : Except BErr (List Nat × String) :=
  match pub_keyinfo_from_key key network compressed with
  | .error e => .error e
  | .ok (bs, net) => .ok (hash160 bs, net)

/-! ### WIF encoding and decoding -/

/-- WIF encoding of a validated private key, mirroring
`wif_from_prv_key` of `btclib/b58.py`: Base58Check of the network WIF
version byte, the 32-byte big-endian key, and a trailing 0x01 exactly
when compressed. -/
def wif_from_prv_key (q : Nat) (network : String) (compressed : Bool) :
    Except BErr (List Char) :=
  match networkParams network with
  | none => .error (.valueError "unknown network: ")
  | some p =>
    if 0 < q ∧ q < secp256k1N then
      .ok (b58encode ([p.wif] ++ natToBytesBE 32 q ++ (if compressed then [1] else [])))
    else .error (.valueError "private key not in 1..n-1: ")

/-- WIF decoding, modelled from the spec: Base58Check-decode, require a
registered WIF version byte, total payload length 33 or 34 bytes with
the trailing 0x01 marker exactly when the length is 34, and the key in
1..n-1; optional expected network and compressed arguments must agree.
This is the WIF branch of `prv_keyinfo_from_prv_key`, whose string entry
point reports failures as "not a private key". -/
def prv_keyinfo_from_wif (wif : List Char) (network : Option String)
    (compressed : Option Bool) : Except BErr (Nat × String × Bool) :=
  match b58decode wif none with
  | .error _ => .error (.valueError "not a private key: ")
  | .ok payload =>
    match network_from_key_value "wif" (payload.take 1) with
    | none => .error (.valueError "not a private key: ")
    | some net =>
      if network ≠ none ∧ network ≠ some net then
        .error (.valueError "not a private key: ")
      else
        let checked : Except BErr (Nat × String × Bool) :=
          if payload.length = 34 then
            if payload.getLast? = some 1 then
              .ok (bytesToNat ((payload.drop 1).dropLast), net, true)
            else .error (.valueError "not a private key: ")
          else if payload.length = 33 then
            .ok (bytesToNat (payload.drop 1), net, false)
          else .error (.valueError "not a private key: ")
        match checked with
        | .error e => .error e
        | .ok (q, n2, compr) =>
          if compressed ≠ none ∧ compressed ≠ some compr then
            .error (.valueError "not a private key: ")
          else if 0 < q ∧ q < secp256k1N then .ok (q, n2, compr)
          else .error (.valueError "not a private key: ")

/-! ### Base58 addresses (`btclib/b58.py`) -/

/-- Encode a base58 address from prefix and HASH160 payload, mirroring
`address_from_h160`. -/
def address_from_h160 (pfx : List Nat) (h160 : List Nat) (network : String) :
    Except BErr (List Char) :=
  match networkParams network with
  | none => .error (.valueError "unknown network: ")
  | some p =>
    if pfx = [p.p2pkh] ∨ pfx = [p.p2sh] then
      if h160.length = 20 then .ok (b58encode (pfx ++ h160))
      else .error (.valueError "invalid size: ")
    else .error (.valueError ("invalid " ++ network ++ " base58 address prefix: "))

/-- Decode a base58 address to (prefix, hash, network, is-script-hash),
mirroring `h160_from_address`: strip, Base58Check-decode to exactly 21
bytes, then reverse-resolve the one-byte prefix as a p2pkh or p2sh
version byte of some registered network. -/
def h160_from_address (addr : List Char) : Except BErr (List Nat × List Nat × String × Bool) :=
  let a := stripChars addr
  match b58decode a (some 21) with
  | .error e => .error e
  | .ok payload =>
    match network_from_key_value "p2pkh" (payload.take 1) with
    | some net => .ok (payload.take 1, payload.drop 1, net, false)
    | none =>
      match network_from_key_value "p2sh" (payload.take 1) with
      | some net => .ok (payload.take 1, payload.drop 1, net, true)
      | none => .error (.valueError "invalid base58 address prefix: ")

/-- p2pkh address of a key, mirroring `p2pkh` of `btclib/b58.py`. -/
def p2pkhAddress (key : Key) (network : Option String) (compressed : Option Bool) :
    Except BErr (List Char) :=
  match hash160_from_key key network compressed with
  | .error e => .error e
  | .ok (h, net) =>
    match networkParams net with
    | none => .error (.valueError "unknown network: ")
    | some p => address_from_h160 [p.p2pkh] h net

/-- p2sh address of a script, mirroring `p2sh` of `btclib/b58.py`. -/
def p2shAddress (script_pub_key : List Nat) (network : String) :
    Except BErr (List Char) :=
  match networkParams network with
  | none => .error (.valueError "unknown network: ")
  | some p => address_from_h160 [p.p2sh] (hash160 script_pub_key) network

/-- Witness program validation, modelled from the spec (`check_witness`
of `btclib/b32.py`): version 0 takes exactly 20 or 32 bytes; versions
1..16 take 2..40 bytes; larger versions are invalid. -/
def check_witness (witVer : Nat) (witPrg : List Nat) : Except BErr Unit :=
  if witVer = 0 then
    if witPrg.length = 20 ∨ witPrg.length = 32 then .ok ()
    else .error (.valueError "invalid witness program length for witness v0: ")
  else if witVer ≤ 16 then
    if 2 ≤ witPrg.length ∧ witPrg.length ≤ 40 then .ok ()
    else .error (.valueError "invalid witness program length: ")
  else .error (.valueError "invalid witness version: ")

/-- Legacy p2sh-wrapped segwit address, mirroring
`address_from_v0_witness_program`: validate the program for witness v0,
build the redeem script `0 <program>`, and wrap it as p2sh. -/
def address_from_v0_witness_program (witPrg : List Nat) (network : String) :
    Except BErr (List Char) :=
  match check_witness 0 witPrg with
  | .error e => .error e
  | .ok _ => p2shAddress (serialize [.num 0, .push witPrg]) network

/-- p2wpkh-p2sh address of a key, mirroring `p2wpkh_p2sh`: the key is
always resolved as compressed. -/
def p2wpkh_p2sh (key : Key) (network : Option String) : Except BErr (List Char) :=
  match hash160_from_key key network (some true) with
  | .error e => .error e
  | .ok (witnessProgram, net) => address_from_v0_witness_program witnessProgram net

/-- p2wsh-p2sh address of a redeem script, mirroring `p2wsh_p2sh`. -/
def p2wsh_p2sh (redeemScript : List Nat) (network : String) : Except BErr (List Char) :=
  address_from_v0_witness_program (sha256 redeemScript) network

/-! ### Bech32 encoding (`btclib/b32.py`)

Modelled from the spec: 5-bit grouping of version and program, the
network human-readable prefix, and the BCH-style checksum (bech32
polynomial for witness version 0). -/

def bech32Charset : List Char := "qpzry9x8gf2tvdw0s3jn54khce6mua7".toList

def bech32Gens : List Nat :=
  [0x3b6a57b2, 0x26508e6d, 0x1ea119fa, 0x3d4233dd, 0x2a1462b3]

def bech32PolymodStep (chk v : Nat) : Nat :=
  let b := chk >>> 25
  let chk2 := ((chk &&& 0x1ffffff) <<< 5) ^^^ v
  (List.range 5).foldl
    (fun c i => if (b >>> i) &&& 1 = 1 then c ^^^ bech32Gens.getD i 0 else c) chk2

def bech32Polymod (values : List Nat) : Nat :=
  values.foldl bech32PolymodStep 1

def bech32HrpExpand (hrp : List Char) : List Nat :=
  hrp.map (fun c => c.toNat >>> 5) ++ [0] ++ hrp.map (fun c => c.toNat &&& 31)

/-- Checksum with constant 1 (bech32, used for witness version 0). -/
def bech32CreateChecksum (hrp : List Char) (data : List Nat) : List Nat :=
  let pm := bech32Polymod (bech32HrpExpand hrp ++ data ++ [0, 0, 0, 0, 0, 0]) ^^^ 1
  (List.range 6).map (fun i => (pm >>> (5 * (5 - i))) &&& 31)

/-- Bits of a byte, most significant first. -/
def byteBits (b : Nat) : List Nat :=
  (List.range 8).map (fun i => (b >>> (7 - i)) &&& 1)

def bitsToNum (bits : List Nat) : Nat :=
  bits.foldl (fun a b => a * 2 + b) 0

/-- Split into 5-bit groups. -/
def chunks5 (bits : List Nat) : List (List Nat) :=
  chunksAux 5 bits.length bits

/-- Regroup 8-bit bytes into zero-padded 5-bit groups. -/
def convertBits8to5 (bs : List Nat) : List Nat :=
  let bits := (bs.map byteBits).join
  let padded := bits ++ List.replicate ((5 - bits.length % 5) % 5) 0
  (chunks5 padded).map bitsToNum

/-- Bech32 segwit address for witness version 0, mirroring
`address_from_witness` restricted to version 0. -/
def b32_address_from_witness_v0 (witPrg : List Nat) (network : String) :
    Except BErr (List Char) :=
  match check_witness 0 witPrg with
  | .error e => .error e
  | .ok _ =>
    match networkParams network with
    | none => .error (.valueError "unknown network: ")
    | some p =>
      let data := 0 :: convertBits8to5 witPrg
      .ok (p.hrp ++ ['1'] ++
        (data ++ bech32CreateChecksum p.hrp data).map (fun d => bech32Charset.getD d 'q'))

/-- Bech32 p2wpkh address of a key, mirroring `p2wpkh` of
`btclib/b32.py`: the key is always resolved as compressed. -/
def b32_p2wpkh (key : Key) (network : Option String) : Except BErr (List Char) :=
  match hash160_from_key key network (some true) with
  | .error e => .error e
  | .ok (witnessProgram, net) => b32_address_from_witness_v0 witnessProgram net

/-! ### Helper lemmas for the claim theorems -/

theorem b58decode_stripChars (cs : List Char) (o : Option Nat) :
    b58decode (stripChars cs) o = b58decode cs o := by
  unfold b58decode
  rw [stripChars_idem]

theorem b58decode_ok_length (cs : List Char) (sz : Nat) (pl : List Nat)
    (h : b58decode cs (some sz) = .ok pl) : pl.length = sz := by
  unfold b58decode at h
  dsimp only at h
  rcases hdec : b58decodeNoCheck (stripChars cs) with _ | full
  · rw [hdec] at h; exact absurd h (by simp)
  · rw [hdec] at h
    dsimp only at h
    by_cases h4 : full.length < 4
    · rw [if_pos h4] at h; exact absurd h (by simp)
    · rw [if_neg h4] at h
      by_cases hck : checksum4 (full.take (full.length - 4)) = full.drop (full.length - 4)
      · rw [if_pos hck] at h
        by_cases hlen : (full.take (full.length - 4)).length = sz
        · rw [if_pos hlen] at h
          cases h
          exact hlen
        · rw [if_neg hlen] at h; exact absurd h (by simp)
      · rw [if_neg hck] at h; exact absurd h (by simp)

def mainnetP : NetworkParams := ⟨0x00, 0x05, 0x80, "bc".toList⟩

def testnetP : NetworkParams := ⟨0x6f, 0xc4, 0xef, "tb".toList⟩

theorem networkParams_cases (net : String) (p : NetworkParams)
    (h : networkParams net = some p) :
    (net = "mainnet" ∧ p = mainnetP) ∨ (net = "testnet" ∧ p = testnetP) := by
  unfold networkParams NETWORKS at h
  by_cases h1 : net = "mainnet"
  · subst h1
    simp [List.lookup] at h
    left
    exact ⟨rfl, h.symm⟩
  · by_cases h2 : net = "testnet"
    · subst h2
      simp [List.lookup] at h
      right
      exact ⟨rfl, h.symm⟩
    · exfalso
      have hb1 : (net == "mainnet") = false := by simp [h1]
      have hb2 : (net == "testnet") = false := by simp [h2]
      simp [List.lookup, hb1, hb2] at h

theorem network_from_key_value_wif (net : String) (p : NetworkParams)
    (h : networkParams net = some p) :
    network_from_key_value "wif" [p.wif] = some net := by
  rcases networkParams_cases net p h with ⟨rfl, rfl⟩ | ⟨rfl, rfl⟩ <;> rfl

/-! ## Claim theorems -/

set_option maxRecDepth 100000 in
/-- C4: `wif_from_prv_key` returns the Base58Check encoding of the
network WIF version byte, the 32-byte big-endian private key, and a
trailing 0x01 byte exactly when compressed is true; and the key
0x0C28FCA386C7A227600B2FE50B7CAE11EC86D3BF1FBE471BE89827E19D72AA1D on
mainnet compressed yields
KwdMAjGmerYanjeui5SHS7JkmpZvVipYvB2LJGU1ZxJwYvP98617. -/
theorem wif_from_prv_key_spec :
    (∀ (q : Nat) (network : String) (compressed : Bool) (p : NetworkParams),
      networkParams network = some p → 0 < q → q < secp256k1N →
      wif_from_prv_key q network compressed =
        .ok (b58encode ([p.wif] ++ natToBytesBE 32 q ++
          (if compressed then [1] else [])))) ∧
    wif_from_prv_key
      0x0C28FCA386C7A227600B2FE50B7CAE11EC86D3BF1FBE471BE89827E19D72AA1D
      "mainnet" true =
      .ok "KwdMAjGmerYanjeui5SHS7JkmpZvVipYvB2LJGU1ZxJwYvP98617".toList := by
  constructor
  · intro q network compressed p hp h0 hn
    unfold wif_from_prv_key
    rw [hp]
    dsimp only
    rw [if_pos (show 0 < q ∧ q < secp256k1N from ⟨h0, hn⟩)]
  · decide

/-- C4 witness: the structural part instantiated at a small concrete
key on mainnet, uncompressed. -/
theorem wif_from_prv_key_spec_witness :
    networkParams "mainnet" = some mainnetP ∧ 0 < 7 ∧ 7 < secp256k1N ∧
    wif_from_prv_key 7 "mainnet" false =
      .ok (b58encode ([mainnetP.wif] ++ natToBytesBE 32 7 ++
        (if false then [1] else []))) :=
  ⟨rfl, by decide, by decide,
    wif_from_prv_key_spec.1 7 "mainnet" false mainnetP rfl (by decide) (by decide)⟩

/-- C6: `address_from_v0_witness_program` accepts exactly the 20- and
32-byte programs, builds the witness-v0 redeem script `0 <program>`,
hashes it with HASH160 and Base58Check-encodes it with the network p2sh
prefix; any other program length is rejected with a typed error. -/
theorem address_from_v0_witness_program_spec :
    (∀ (prog : List Nat) (network : String) (p : NetworkParams),
      networkParams network = some p →
      (prog.length = 20 ∨ prog.length = 32) →
      address_from_v0_witness_program prog network =
        .ok (b58encode ([p.p2sh] ++ hash160 (serialize [.num 0, .push prog])))) ∧
    (∀ (prog : List Nat) (network : String),
      prog.length ≠ 20 → prog.length ≠ 32 →
      address_from_v0_witness_program prog network =
        .error (.valueError "invalid witness program length for witness v0: ")) := by
  constructor
  · intro prog network p hp hlen
    unfold address_from_v0_witness_program check_witness p2shAddress address_from_h160
    rw [if_pos rfl, if_pos hlen, hp]
    dsimp only
    rw [if_pos (Or.inr rfl), if_pos (hash160_length _)]
  · intro prog network h20 h32
    unfold address_from_v0_witness_program check_witness
    rw [if_pos rfl, if_neg (by tauto)]

/-- C6 witness: a 20-byte program is wrapped on mainnet, a 31-byte
program is rejected. -/
theorem address_from_v0_witness_program_spec_witness :
    networkParams "mainnet" = some mainnetP ∧
    address_from_v0_witness_program (List.replicate 20 0) "mainnet" =
      .ok (b58encode ([mainnetP.p2sh] ++
        hash160 (serialize [.num 0, .push (List.replicate 20 0)]))) ∧
    address_from_v0_witness_program (List.replicate 31 0) "mainnet" =
      .error (.valueError "invalid witness program length for witness v0: ") :=
  ⟨rfl,
    address_from_v0_witness_program_spec.1 (List.replicate 20 0) "mainnet" mainnetP
      rfl (Or.inl (by decide)),
    address_from_v0_witness_program_spec.2 (List.replicate 31 0) "mainnet"
      (by decide) (by decide)⟩

/-- C7: boundary behavior of the builders — an 80-byte nulldata payload
is accepted, an 81-byte one rejected with a typed error; `p2ms` accepts
every m-of-n with 1 ≤ m ≤ n ≤ 16 over valid keys and rejects m = 0,
m = 17, n = 17 and m > n with a typed error naming the violated
bound. -/
theorem builder_boundaries_spec :
    (∀ pl : List Nat, pl.length = 80 →
      from_type_and_payload .nulldata pl = .ok (0x6a :: pushData pl)) ∧
    (∀ pl : List Nat, pl.length = 81 →
      from_type_and_payload .nulldata pl =
        .error (.valueError "invalid nulldata payload length: ")) ∧
    (∀ (m : Nat) (keys : List (List Nat)) (lexi : Bool),
      1 ≤ m → m ≤ keys.length → keys.length ≤ 16 →
      keys.all validKeyBytes = true →
      p2msBuild m keys lexi =
        .ok ([0x50 + m] ++
          (((if lexi then sortLex keys else keys).map pushData).join) ++
          [0x50 + keys.length, 0xae])) ∧
    (∀ (keys : List (List Nat)) (lexi : Bool),
      p2msBuild 0 keys lexi = .error (.valueError "invalid m in m-of-n: ")) ∧
    (∀ (keys : List (List Nat)) (lexi : Bool),
      p2msBuild 17 keys lexi = .error (.valueError "invalid m in m-of-n: ")) ∧
    (∀ (m : Nat) (keys : List (List Nat)) (lexi : Bool),
      keys.length = 17 → 1 ≤ m → m ≤ 16 →
      p2msBuild m keys lexi = .error (.valueError "invalid n in m-of-n: ")) ∧
    (∀ (m : Nat) (keys : List (List Nat)) (lexi : Bool),
      1 ≤ m → m ≤ 16 → keys.length ≤ 16 → keys.length < m →
      p2msBuild m keys lexi = .error (.valueError "invalid m in m-of-n: ")) := by
  refine ⟨?_, ?_, ?_, ?_, ?_, ?_, ?_⟩
  · intro pl h
    unfold from_type_and_payload
    dsimp only
    rw [if_pos (by omega)]
  · intro pl h
    unfold from_type_and_payload
    dsimp only
    rw [if_neg (by omega)]
  · intro m keys lexi h1 h2 h3 hkeys
    unfold p2msBuild
    rw [if_neg (by omega), if_neg (by omega), if_neg (by omega),
      if_neg (by simp [hkeys])]
  · intro keys lexi
    unfold p2msBuild
    rw [if_pos (by omega)]
  · intro keys lexi
    unfold p2msBuild
    rw [if_pos (by omega)]
  · intro m keys lexi hn h1 h2
    unfold p2msBuild
    rw [if_neg (by omega), if_pos (by omega)]
  · intro m keys lexi h1 h2 h3 h4
    unfold p2msBuild
    rw [if_neg (by omega), if_neg (by omega), if_pos (by omega)]

/-- C7 witness: all seven boundary cases at concrete inputs. -/
theorem builder_boundaries_spec_witness :
    from_type_and_payload .nulldata (List.replicate 80 0) =
      .ok (0x6a :: pushData (List.replicate 80 0)) ∧
    from_type_and_payload .nulldata (List.replicate 81 0) =
      .error (.valueError "invalid nulldata payload length: ") ∧
    p2msBuild 1 [2 :: List.replicate 32 0] false =
      .ok ([0x50 + 1] ++
        (((if false then sortLex [2 :: List.replicate 32 0]
          else [2 :: List.replicate 32 0]).map pushData).join) ++
        [0x50 + 1, 0xae]) ∧
    p2msBuild 0 [] false = .error (.valueError "invalid m in m-of-n: ") ∧
    p2msBuild 17 [] false = .error (.valueError "invalid m in m-of-n: ") ∧
    p2msBuild 1 (List.replicate 17 (2 :: List.replicate 32 0)) false =
      .error (.valueError "invalid n in m-of-n: ") ∧
    p2msBuild 2 [2 :: List.replicate 32 0] false =
      .error (.valueError "invalid m in m-of-n: ") :=
  ⟨builder_boundaries_spec.1 _ (by decide),
    builder_boundaries_spec.2.1 _ (by decide),
    builder_boundaries_spec.2.2.1 1 [2 :: List.replicate 32 0] false
      (by decide) (by decide) (by decide) (by decide),
    builder_boundaries_spec.2.2.2.1 [] false,
    builder_boundaries_spec.2.2.2.2.1 [] false,
    builder_boundaries_spec.2.2.2.2.2.1 1 _ false (by decide) (by decide) (by decide),
    builder_boundaries_spec.2.2.2.2.2.2 2 [2 :: List.replicate 32 0] false
      (by decide) (by decide) (by decide) (by decide)⟩

theorem pub_keyinfo_compressed_ok (bs : List Nat) (network : Option String)
    (c : Option Bool) (h : bs.length = 33 ∧ (bs.getD 0 0 = 2 ∨ bs.getD 0 0 = 3))
    (hc : c = none ∨ c = some true) :
    pub_keyinfo_from_key (.pub bs) network c = .ok (bs, network.getD "mainnet") := by
  unfold pub_keyinfo_from_key
  dsimp only
  rw [if_pos h]
  rcases hc with rfl | rfl <;> rfl

theorem pub_keyinfo_uncompressed_ok (bs : List Nat) (network : Option String)
    (c : Option Bool) (h65 : bs.length = 65) (h4 : bs.getD 0 0 = 4)
    (hc : c = none ∨ c = some false) :
    pub_keyinfo_from_key (.pub bs) network c = .ok (bs, network.getD "mainnet") := by
  unfold pub_keyinfo_from_key
  dsimp only
  rw [if_neg (by omega), if_pos ⟨h65, h4⟩]
  rcases hc with rfl | rfl <;> rfl

theorem pub_keyinfo_compressed_flag_err (bs : List Nat) (network : Option String)
    (h : bs.length = 33 ∧ (bs.getD 0 0 = 2 ∨ bs.getD 0 0 = 3)) :
    pub_keyinfo_from_key (.pub bs) network (some false) =
      .error (.valueError "not a private or uncompressed public key: ") := by
  unfold pub_keyinfo_from_key
  dsimp only
  rw [if_pos h]

theorem pub_keyinfo_uncompressed_flag_err (bs : List Nat) (network : Option String)
    (h65 : bs.length = 65) (h4 : bs.getD 0 0 = 4) :
    pub_keyinfo_from_key (.pub bs) network (some true) =
      .error (.valueError "not a private or compressed public key: ") := by
  unfold pub_keyinfo_from_key
  dsimp only
  rw [if_neg (by omega), if_pos ⟨h65, h4⟩]

theorem pub_keyinfo_prv_flag_err (q : Nat) (net : String) :
    pub_keyinfo_from_key (.prvInfo q net false) none (some true) =
      .error (.valueError "not a private or compressed public key: ") := by
  unfold pub_keyinfo_from_key
  dsimp only
  rw [if_neg (by simp), if_pos (by simp)]
  rfl

/-- C9: `p2wpkh_p2sh` (and the bech32 p2wpkh builder) always treats the
key as compressed — a 33-byte marker-2/3 public key succeeds and its own
bytes are hashed, while a 65-byte marker-4 public key or an
uncompressed-flag private key fails with the typed error
"not a private or compressed public key: ". -/
theorem p2wpkh_p2sh_compressed_only_spec :
    (∀ (bs : List Nat) (network : Option String),
      bs.length = 65 → bs.getD 0 0 = 4 →
      p2wpkh_p2sh (.pub bs) network =
        .error (.valueError "not a private or compressed public key: ") ∧
      b32_p2wpkh (.pub bs) network =
        .error (.valueError "not a private or compressed public key: ")) ∧
    (∀ (q : Nat) (net : String),
      p2wpkh_p2sh (.prvInfo q net false) none =
        .error (.valueError "not a private or compressed public key: ") ∧
      b32_p2wpkh (.prvInfo q net false) none =
        .error (.valueError "not a private or compressed public key: ")) ∧
    (∀ (bs : List Nat) (network : Option String),
      bs.length = 33 → (bs.getD 0 0 = 2 ∨ bs.getD 0 0 = 3) →
      p2wpkh_p2sh (.pub bs) network =
        address_from_v0_witness_program (hash160 bs) (network.getD "mainnet")) := by
  refine ⟨?_, ?_, ?_⟩
  · intro bs network h65 h4
    constructor
    · unfold p2wpkh_p2sh hash160_from_key
      rw [pub_keyinfo_uncompressed_flag_err bs network h65 h4]
    · unfold b32_p2wpkh hash160_from_key
      rw [pub_keyinfo_uncompressed_flag_err bs network h65 h4]
  · intro q net
    constructor
    · unfold p2wpkh_p2sh hash160_from_key
      rw [pub_keyinfo_prv_flag_err q net]
    · unfold b32_p2wpkh hash160_from_key
      rw [pub_keyinfo_prv_flag_err q net]
  · intro bs network h33 hm
    unfold p2wpkh_p2sh hash160_from_key
    rw [pub_keyinfo_compressed_ok bs network (some true) ⟨h33, hm⟩ (Or.inr rfl)]

/-- C9 witness: a concrete 65-byte marker-4 key and an uncompressed
private-key info are rejected by both wrappers; a concrete 33-byte
marker-2 key goes through to the p2sh wrapping of its own HASH160. -/
theorem p2wpkh_p2sh_compressed_only_spec_witness :
    (p2wpkh_p2sh (.pub (4 :: List.replicate 64 0)) none =
      .error (.valueError "not a private or compressed public key: ")) ∧
    (b32_p2wpkh (.pub (4 :: List.replicate 64 0)) none =
      .error (.valueError "not a private or compressed public key: ")) ∧
    (p2wpkh_p2sh (.prvInfo 7 "mainnet" false) none =
      .error (.valueError "not a private or compressed public key: ")) ∧
    (p2wpkh_p2sh (.pub (2 :: List.replicate 32 0)) none =
      address_from_v0_witness_program (hash160 (2 :: List.replicate 32 0))
        "mainnet") :=
  ⟨(p2wpkh_p2sh_compressed_only_spec.1 _ none (by decide) (by decide)).1,
    (p2wpkh_p2sh_compressed_only_spec.1 _ none (by decide) (by decide)).2,
    (p2wpkh_p2sh_compressed_only_spec.2.1 7 "mainnet").1,
    p2wpkh_p2sh_compressed_only_spec.2.2 _ none (by decide) (by decide)⟩

/-- C10: when `p2pkh` is given no explicit compressed flag, the key is
hashed in its own form; an explicit flag matching the form changes
nothing; a flag contradicting the form raises a typed error naming the
requested form instead of re-serializing the key. -/
theorem p2pkh_compression_inference_spec :
    (∀ (bs : List Nat) (network : Option String),
      validKeyBytes bs = true →
      p2pkhAddress (.pub bs) network none =
        (match networkParams (network.getD "mainnet") with
          | none => .error (.valueError "unknown network: ")
          | some p => address_from_h160 [p.p2pkh] (hash160 bs)
              (network.getD "mainnet"))) ∧
    (∀ (bs : List Nat) (network : Option String),
      bs.length = 33 → (bs.getD 0 0 = 2 ∨ bs.getD 0 0 = 3) →
      p2pkhAddress (.pub bs) network (some true) =
        p2pkhAddress (.pub bs) network none) ∧
    (∀ (bs : List Nat) (network : Option String),
      bs.length = 65 → bs.getD 0 0 = 4 →
      p2pkhAddress (.pub bs) network (some false) =
        p2pkhAddress (.pub bs) network none) ∧
    (∀ (bs : List Nat) (network : Option String),
      bs.length = 33 → (bs.getD 0 0 = 2 ∨ bs.getD 0 0 = 3) →
      p2pkhAddress (.pub bs) network (some false) =
        .error (.valueError "not a private or uncompressed public key: ")) ∧
    (∀ (bs : List Nat) (network : Option String),
      bs.length = 65 → bs.getD 0 0 = 4 →
      p2pkhAddress (.pub bs) network (some true) =
        .error (.valueError "not a private or compressed public key: ")) := by
  refine ⟨?_, ?_, ?_, ?_, ?_⟩
  · intro bs network hv
    unfold validKeyBytes at hv
    rw [decide_eq_true_eq] at hv
    unfold p2pkhAddress hash160_from_key
    rcases hv with h33 | ⟨h65, h4⟩
    · rw [pub_keyinfo_compressed_ok bs network none h33 (Or.inl rfl)]
    · rw [pub_keyinfo_uncompressed_ok bs network none h65 h4 (Or.inl rfl)]
  · intro bs network h33 hm
    unfold p2pkhAddress hash160_from_key
    rw [pub_keyinfo_compressed_ok bs network (some true) ⟨h33, hm⟩ (Or.inr rfl),
      pub_keyinfo_compressed_ok bs network none ⟨h33, hm⟩ (Or.inl rfl)]
  · intro bs network h65 h4
    unfold p2pkhAddress hash160_from_key
    rw [pub_keyinfo_uncompressed_ok bs network (some false) h65 h4 (Or.inr rfl),
      pub_keyinfo_uncompressed_ok bs network none h65 h4 (Or.inl rfl)]
  · intro bs network h33 hm
    unfold p2pkhAddress hash160_from_key
    rw [pub_keyinfo_compressed_flag_err bs network ⟨h33, hm⟩]
  · intro bs network h65 h4
    unfold p2pkhAddress hash160_from_key
    rw [pub_keyinfo_uncompressed_flag_err bs network h65 h4]

/-- C10 witness: concrete compressed and uncompressed keys — omitted
flag resolves from the key form, matching flag is identical, and the
two contradictions raise the two typed errors. -/
theorem p2pkh_compression_inference_spec_witness :
    validKeyBytes (2 :: List.replicate 32 0) = true ∧
    p2pkhAddress (.pub (2 :: List.replicate 32 0)) none none =
      (match networkParams "mainnet" with
        | none => .error (.valueError "unknown network: ")
        | some p => address_from_h160 [p.p2pkh]
            (hash160 (2 :: List.replicate 32 0)) "mainnet") ∧
    p2pkhAddress (.pub (2 :: List.replicate 32 0)) none (some true) =
      p2pkhAddress (.pub (2 :: List.replicate 32 0)) none none ∧
    p2pkhAddress (.pub (4 :: List.replicate 64 0)) none (some false) =
      p2pkhAddress (.pub (4 :: List.replicate 64 0)) none none ∧
    p2pkhAddress (.pub (2 :: List.replicate 32 0)) none (some false) =
      .error (.valueError "not a private or uncompressed public key: ") ∧
    p2pkhAddress (.pub (4 :: List.replicate 64 0)) none (some true) =
      .error (.valueError "not a private or compressed public key: ") :=
  ⟨by decide,
    p2pkh_compression_inference_spec.1 _ none (by decide),
    p2pkh_compression_inference_spec.2.1 _ none (by decide) (by decide),
    p2pkh_compression_inference_spec.2.2.1 _ none (by decide) (by decide),
    p2pkh_compression_inference_spec.2.2.2.1 _ none (by decide) (by decide),
    p2pkh_compression_inference_spec.2.2.2.2 _ none (by decide) (by decide)⟩

set_option maxRecDepth 100000 in
/-- C8: classification is fail-closed and total: whenever the result
type is unknown the payload is the full script bytes, and the malformed
scripts from the test suite (an OP_RETURN script whose embedded length
byte disagrees with the data length, an OP_16 script, and a
CHECKMULTISIG script with m greater than n) all classify as unknown
with the script itself as payload. -/
theorem type_and_payload_fail_closed_spec :
    (∀ s : List Nat, (type_and_payload s).1 = .unknown → (type_and_payload s).2 = s) ∧
    type_and_payload (0x6a :: 0x20 :: List.replicate 33 0) =
      (.unknown, 0x6a :: 0x20 :: List.replicate 33 0) ∧
    type_and_payload (0x60 :: 0x14 :: List.replicate 20 0) =
      (.unknown, 0x60 :: 0x14 :: List.replicate 20 0) ∧
    type_and_payload (serialize [.num 3, .push (4 :: List.replicate 64 9),
        .push (4 :: List.replicate 64 9), .num 2, .op 0xae]) =
      (.unknown, serialize [.num 3, .push (4 :: List.replicate 64 9),
        .push (4 :: List.replicate 64 9), .num 2, .op 0xae]) := by
  refine ⟨?_, by decide, by decide, by decide⟩
  intro s h
  unfold type_and_payload at h ⊢
  split_ifs at h ⊢ <;> simp_all

/-- C8 witness: the universal part applied to a concrete non-template
script. -/
theorem type_and_payload_fail_closed_spec_witness :
    (type_and_payload [0x51]).1 = .unknown ∧ (type_and_payload [0x51]).2 = [0x51] :=
  ⟨by decide, type_and_payload_fail_closed_spec.1 [0x51] (by decide)⟩

/-- C3: `h160_from_address` Base58Check-decodes requiring exactly 21
bytes, splits prefix and 20-byte hash, resolves (network,
is-script-hash) from the prefix via the registry (p2pkh before p2sh),
and raises a typed error when the prefix matches no registered
network; decode failures propagate unchanged. -/
theorem h160_from_address_spec :
    ∀ (s : List Char),
      (∀ e, b58decode s (some 21) = .error e → h160_from_address s = .error e) ∧
      (∀ pl, b58decode s (some 21) = .ok pl →
        pl.length = 21 ∧
        (∀ net, network_from_key_value "p2pkh" (pl.take 1) = some net →
          h160_from_address s = .ok (pl.take 1, pl.drop 1, net, false)) ∧
        (network_from_key_value "p2pkh" (pl.take 1) = none →
          ∀ net, network_from_key_value "p2sh" (pl.take 1) = some net →
          h160_from_address s = .ok (pl.take 1, pl.drop 1, net, true)) ∧
        (network_from_key_value "p2pkh" (pl.take 1) = none →
          network_from_key_value "p2sh" (pl.take 1) = none →
          h160_from_address s =
            .error (.valueError "invalid base58 address prefix: "))) := by
  intro s
  constructor
  · intro e he
    unfold h160_from_address
    dsimp only
    rw [b58decode_stripChars, he]
  · intro pl hpl
    refine ⟨b58decode_ok_length s 21 pl hpl, ?_, ?_, ?_⟩
    · intro net hnet
      unfold h160_from_address
      dsimp only
      rw [b58decode_stripChars, hpl]
      dsimp only
      rw [hnet]
    · intro hno net hnet
      unfold h160_from_address
      dsimp only
      rw [b58decode_stripChars, hpl]
      dsimp only
      rw [hno, hnet]
    · intro hno1 hno2
      unfold h160_from_address
      dsimp only
      rw [b58decode_stripChars, hpl]
      dsimp only
      rw [hno1, hno2]

/-- C3 witness: a freshly encoded 21-byte payload with the mainnet
p2pkh version byte decodes and resolves to (mainnet, not a script
hash). -/
theorem h160_from_address_spec_witness :
    b58decode (b58encode (0 :: List.replicate 20 7)) (some 21) =
      .ok (0 :: List.replicate 20 7) ∧
    h160_from_address (b58encode (0 :: List.replicate 20 7)) =
      .ok ((0 :: List.replicate 20 7).take 1, (0 :: List.replicate 20 7).drop 1,
        "mainnet", false) :=
  have hdec := b58decode_b58encode (0 :: List.replicate 20 7) (by decide)
    (some 21) (Or.inr (by decide))
  ⟨hdec, (((h160_from_address_spec _).2 _ hdec).2.1) "mainnet" (by decide)⟩

/-- C5: WIF decoding rejects — with a typed error — any Base58Check
payload whose version byte matches no registered WIF byte, whose total
length is neither 33 nor 34 bytes, or whose length is 34 without the
trailing 0x01 marker; a successful decode implies a registered version
byte and length 34 with the marker (compressed) or length 33
(uncompressed). -/
theorem prv_keyinfo_from_wif_validation_spec :
    ∀ (w : List Char) (pl : List Nat), b58decode w none = .ok pl →
      ((network_from_key_value "wif" (pl.take 1) = none →
        prv_keyinfo_from_wif w none none =
          .error (.valueError "not a private key: ")) ∧
      (pl.length ≠ 33 → pl.length ≠ 34 →
        prv_keyinfo_from_wif w none none =
          .error (.valueError "not a private key: ")) ∧
      (pl.length = 34 → pl.getLast? ≠ some 1 →
        prv_keyinfo_from_wif w none none =
          .error (.valueError "not a private key: ")) ∧
      (∀ q net c, prv_keyinfo_from_wif w none none = .ok (q, net, c) →
        network_from_key_value "wif" (pl.take 1) = some net ∧
        ((pl.length = 34 ∧ pl.getLast? = some 1 ∧ c = true) ∨
          (pl.length = 33 ∧ c = false)))) := by
  intro w pl hdec
  refine ⟨?_, ?_, ?_, ?_⟩
  · intro hno
    unfold prv_keyinfo_from_wif
    rw [hdec]
    dsimp only
    rw [hno]
  · intro h33 h34
    unfold prv_keyinfo_from_wif
    rw [hdec]
    dsimp only
    rcases hlk : network_from_key_value "wif" (pl.take 1) with _ | net
    · rfl
    · dsimp only
      rw [if_neg (by simp), if_neg h34, if_neg h33]
  · intro h34 hmark
    unfold prv_keyinfo_from_wif
    rw [hdec]
    dsimp only
    rcases hlk : network_from_key_value "wif" (pl.take 1) with _ | net
    · rfl
    · dsimp only
      rw [if_neg (by simp), if_pos h34, if_neg hmark]
  · intro q net c hok
    unfold prv_keyinfo_from_wif at hok
    rw [hdec] at hok
    dsimp only at hok
    rcases hlk : network_from_key_value "wif" (pl.take 1) with _ | net2
    · rw [hlk] at hok
      exact absurd hok (by simp)
    · rw [hlk] at hok
      dsimp only at hok
      rw [if_neg (by simp)] at hok
      by_cases h34 : pl.length = 34
      · rw [if_pos h34] at hok
        by_cases hmark : pl.getLast? = some 1
        · rw [if_pos hmark] at hok
          dsimp only at hok
          rw [if_neg (by simp)] at hok
          by_cases hrange : 0 < bytesToNat ((pl.drop 1).dropLast) ∧
              bytesToNat ((pl.drop 1).dropLast) < secp256k1N
          · rw [if_pos hrange] at hok
            have : net2 = net ∧ c = true := by
              cases hok
              exact ⟨rfl, rfl⟩
            rcases this with ⟨rfl, rfl⟩
            exact ⟨rfl, Or.inl ⟨h34, hmark, rfl⟩⟩
          · rw [if_neg hrange] at hok
            exact absurd hok (by simp)
        · rw [if_neg hmark] at hok
          exact absurd hok (by simp)
      · rw [if_neg h34] at hok
        by_cases h33 : pl.length = 33
        · rw [if_pos h33] at hok
          dsimp only at hok
          rw [if_neg (by simp)] at hok
          by_cases hrange : 0 < bytesToNat (pl.drop 1) ∧
              bytesToNat (pl.drop 1) < secp256k1N
          · rw [if_pos hrange] at hok
            have : net2 = net ∧ c = false := by
              cases hok
              exact ⟨rfl, rfl⟩
            rcases this with ⟨rfl, rfl⟩
            exact ⟨rfl, Or.inr ⟨h33, rfl⟩⟩
          · rw [if_neg hrange] at hok
            exact absurd hok (by simp)
        · rw [if_neg h33] at hok
          exact absurd hok (by simp)

/-- C5 witness: a Base58Check string with the unregistered version byte
0x81 over a 32-byte body decodes to 33 bytes but is rejected as a
WIF. -/
theorem prv_keyinfo_from_wif_validation_spec_witness :
    b58decode (b58encode (0x81 :: List.replicate 32 2)) none =
      .ok (0x81 :: List.replicate 32 2) ∧
    network_from_key_value "wif" ((0x81 :: List.replicate 32 2).take 1) = none ∧
    prv_keyinfo_from_wif (b58encode (0x81 :: List.replicate 32 2)) none none =
      .error (.valueError "not a private key: ") :=
  have hdec := b58decode_b58encode (0x81 :: List.replicate 32 2) (by decide)
    none (Or.inl rfl)
  ⟨hdec, by decide,
    (prv_keyinfo_from_wif_validation_spec _ _ hdec).1 (by decide)⟩

/-! ### Classification lemmas for the build/classify round trip -/

theorem is_p2pk_b0 (s : List Nat) (h : is_p2pk s = true) :
    s.getD 0 0 = 33 ∨ s.getD 0 0 = 65 := by
  rw [is_p2pk, decide_eq_true_eq] at h
  exact h.1

theorem is_p2pkh_b0 (s : List Nat) (h : is_p2pkh s = true) : s.getD 0 0 = 0x76 := by
  rw [is_p2pkh, decide_eq_true_eq] at h
  exact h.2.1

theorem is_p2sh_b0 (s : List Nat) (h : is_p2sh s = true) : s.getD 0 0 = 0xa9 := by
  rw [is_p2sh, decide_eq_true_eq] at h
  exact h.2.1

theorem is_p2wpkh_b0 (s : List Nat) (h : is_p2wpkh s = true) : s.getD 0 0 = 0 := by
  rw [is_p2wpkh, decide_eq_true_eq] at h
  exact h.2.1

theorem is_p2wsh_b0 (s : List Nat) (h : is_p2wsh s = true) : s.getD 0 0 = 0 := by
  rw [is_p2wsh, decide_eq_true_eq] at h
  exact h.2.1

theorem is_p2ms_b0 (s : List Nat) (h : is_p2ms s = true) :
    81 ≤ s.getD 0 0 ∧ s.getD 0 0 ≤ 96 := by
  unfold is_p2ms at h
  split at h
  · simp only [Bool.and_eq_true, decide_eq_true_eq] at h
    obtain ⟨⟨⟨h1, h2⟩, -⟩, -⟩ := h
    omega
  · exact absurd h (by simp)

theorem is_p2wpkh_b1 (s : List Nat) (h : is_p2wpkh s = true) : s.getD 1 0 = 20 := by
  rw [is_p2wpkh, decide_eq_true_eq] at h
  exact h.2.2

theorem is_p2pkh_len (s : List Nat) (h : is_p2pkh s = true) : s.length = 25 := by
  rw [is_p2pkh, decide_eq_true_eq] at h
  exact h.1

theorem is_p2sh_len (s : List Nat) (h : is_p2sh s = true) : s.length = 23 := by
  rw [is_p2sh, decide_eq_true_eq] at h
  exact h.1

theorem is_p2wpkh_len (s : List Nat) (h : is_p2wpkh s = true) : s.length = 22 := by
  rw [is_p2wpkh, decide_eq_true_eq] at h
  exact h.1

theorem is_p2wsh_len (s : List Nat) (h : is_p2wsh s = true) : s.length = 34 := by
  rw [is_p2wsh, decide_eq_true_eq] at h
  exact h.1

theorem tap_p2pk (pl : List Nat) (hv : validKeyBytes pl = true) :
    type_and_payload (pushData pl ++ [0xac]) = (.p2pk, pl) := by
  rw [validKeyBytes, decide_eq_true_eq] at hv
  have hlen75 : pl.length ≤ 75 := by rcases hv with ⟨h, -⟩ | ⟨h, -⟩ <;> omega
  have hpush : pushData pl = pl.length :: pl := by
    unfold pushData
    rw [if_pos hlen75]
  rw [hpush]
  set s := (pl.length :: pl) ++ [0xac] with hs
  have hb0 : s.getD 0 0 = pl.length := by rw [hs]; rfl
  have hlen : s.length = pl.length + 2 := by simp [hs]
  have hlast : s.getLast? = some 0xac := by
    rw [hs, List.cons_append]
    have : pl.length :: (pl ++ [0xac]) = (pl.length :: pl) ++ [0xac] := by simp
    rw [this, List.getLast?_concat]
  have hpk : is_p2pk s = true := by
    rw [is_p2pk, decide_eq_true_eq]
    refine ⟨?_, by omega, hlast⟩
    rw [hb0]
    rcases hv with ⟨h, -⟩ | ⟨h, -⟩
    · left; exact h
    · right; exact h
  unfold type_and_payload
  rw [if_pos hpk]
  have hpay : (s.drop 1).dropLast = pl := by
    rw [hs, List.cons_append, List.drop_succ_cons, List.drop_zero]
    simp
  rw [hpay]

theorem tap_p2pkh (pl : List Nat) (h : pl.length = 20) :
    type_and_payload (([0x76, 0xa9, 0x14] ++ pl) ++ [0x88, 0xac]) = (.p2pkh, pl) := by
  set s := ([0x76, 0xa9, 0x14] ++ pl) ++ [0x88, 0xac] with hs
  have hb0 : s.getD 0 0 = 0x76 := by
    rw [hs, List.getD_append _ _ _ _ (by simp), List.getD_append _ _ _ _ (by simp)]
    decide
  have hb1 : s.getD 1 0 = 0xa9 := by
    rw [hs, List.getD_append _ _ _ _ (by simp), List.getD_append _ _ _ _ (by simp)]
    decide
  have hb2 : s.getD 2 0 = 0x14 := by
    rw [hs, List.getD_append _ _ _ _ (by simp), List.getD_append _ _ _ _ (by simp)]
    decide
  have hlen3 : ([0x76, 0xa9, 0x14] ++ pl).length = 23 := by simp [h]
  have hb23 : s.getD 23 0 = 0x88 := by
    rw [hs, List.getD_append_right _ _ _ _ (by omega), hlen3]
    decide
  have hb24 : s.getD 24 0 = 0xac := by
    rw [hs, List.getD_append_right _ _ _ _ (by omega), hlen3]
    decide
  have hlen : s.length = 25 := by simp [hs, h]
  have hpkh : is_p2pkh s = true := by
    rw [is_p2pkh, decide_eq_true_eq]
    exact ⟨hlen, hb0, hb1, hb2, hb23, hb24⟩
  unfold type_and_payload
  rw [if_neg (fun hx => by have := is_p2pk_b0 s hx; omega), if_pos hpkh]
  have hpay : (s.drop 3).take (s.length - 5) = pl := by
    rw [hs, hlen]
    have hdrop : (([0x76, 0xa9, 0x14] ++ pl) ++ [0x88, 0xac]).drop 3 =
        pl ++ [0x88, 0xac] := by
      rw [List.append_assoc]
      have : (3 : Nat) = ([0x76, 0xa9, 0x14] : List Nat).length := by simp
      rw [this, List.drop_left]
    rw [hdrop]
    exact List.take_left' h
  rw [hpay]

theorem tap_p2sh (pl : List Nat) (h : pl.length = 20) :
    type_and_payload (([0xa9, 0x14] ++ pl) ++ [0x87]) = (.p2sh, pl) := by
  set s := ([0xa9, 0x14] ++ pl) ++ [0x87] with hs
  have hb0 : s.getD 0 0 = 0xa9 := by
    rw [hs, List.getD_append _ _ _ _ (by simp), List.getD_append _ _ _ _ (by simp)]
    decide
  have hb1 : s.getD 1 0 = 0x14 := by
    rw [hs, List.getD_append _ _ _ _ (by simp), List.getD_append _ _ _ _ (by simp)]
    decide
  have hlen : s.length = 23 := by simp [hs, h]
  have hlast : s.getLast? = some 0x87 := by rw [hs, List.getLast?_concat]
  have hsh : is_p2sh s = true := by
    rw [is_p2sh, decide_eq_true_eq]
    exact ⟨hlen, hb0, hb1, hlast⟩
  unfold type_and_payload
  rw [if_neg (fun hx => by have := is_p2pk_b0 s hx; omega),
    if_neg (fun hx => by have := is_p2pkh_b0 s hx; omega),
    if_pos hsh]
  have hpay : (s.drop 2).dropLast = pl := by
    rw [hs]
    have : ([0xa9, 0x14] ++ pl) ++ [0x87] = 0xa9 :: 0x14 :: (pl ++ [0x87]) := by simp
    rw [this, List.drop_succ_cons, List.drop_succ_cons, List.drop_zero]
    simp
  rw [hpay]

theorem tap_p2wpkh (pl : List Nat) (h : pl.length = 20) :
    type_and_payload ([0x00, 0x14] ++ pl) = (.p2wpkh, pl) := by
  set s := [0x00, 0x14] ++ pl with hs
  have hb0 : s.getD 0 0 = 0 := by rw [hs]; rfl
  have hb1 : s.getD 1 0 = 0x14 := by rw [hs]; rfl
  have hlen : s.length = 22 := by simp [hs, h]
  have hw : is_p2wpkh s = true := by
    rw [is_p2wpkh, decide_eq_true_eq]
    exact ⟨hlen, hb0, hb1⟩
  unfold type_and_payload
  rw [if_neg (fun hx => by have := is_p2pk_b0 s hx; omega),
    if_neg (fun hx => by have := is_p2pkh_b0 s hx; omega),
    if_neg (fun hx => by have := is_p2sh_b0 s hx; omega),
    if_pos hw]
  have hpay : s.drop 2 = pl := by rw [hs]; rfl
  rw [hpay]

theorem tap_p2wsh (pl : List Nat) (h : pl.length = 32) :
    type_and_payload ([0x00, 0x20] ++ pl) = (.p2wsh, pl) := by
  set s := [0x00, 0x20] ++ pl with hs
  have hb0 : s.getD 0 0 = 0 := by rw [hs]; rfl
  have hb1 : s.getD 1 0 = 0x20 := by rw [hs]; rfl
  have hlen : s.length = 34 := by simp [hs, h]
  have hw : is_p2wsh s = true := by
    rw [is_p2wsh, decide_eq_true_eq]
    exact ⟨hlen, hb0, hb1⟩
  unfold type_and_payload
  rw [if_neg (fun hx => by have := is_p2pk_b0 s hx; omega),
    if_neg (fun hx => by have := is_p2pkh_b0 s hx; omega),
    if_neg (fun hx => by have := is_p2sh_b0 s hx; omega),
    if_neg (fun hx => by have := is_p2wpkh_b1 s hx; rw [hb1] at this; omega),
    if_pos hw]
  have hpay : s.drop 2 = pl := by rw [hs]; rfl
  rw [hpay]

theorem tap_p2ms (pl : List Nat) (h : is_p2ms (pl ++ [0xae]) = true) :
    type_and_payload (pl ++ [0xae]) = (.p2ms, pl) := by
  set s := pl ++ [0xae] with hs
  obtain ⟨hlo, hhi⟩ := is_p2ms_b0 s h
  unfold type_and_payload
  rw [if_neg (fun hx => by have := is_p2pk_b0 s hx; omega),
    if_neg (fun hx => by have := is_p2pkh_b0 s hx; omega),
    if_neg (fun hx => by have := is_p2sh_b0 s hx; omega),
    if_neg (fun hx => by have := is_p2wpkh_b0 s hx; omega),
    if_neg (fun hx => by have := is_p2wsh_b0 s hx; omega),
    if_pos h]
  have hpay : s.dropLast = pl := by rw [hs]; simp
  rw [hpay]

theorem tap_nulldata (pl : List Nat) (h : pl.length ≤ 80) :
    type_and_payload (0x6a :: pushData pl) = (.nulldata, pl) := by
  by_cases h75 : pl.length ≤ 75
  · have hpush : pushData pl = pl.length :: pl := by
      unfold pushData
      rw [if_pos h75]
    set s := 0x6a :: pushData pl with hs
    have hse : s = 0x6a :: pl.length :: pl := by rw [hs, hpush]
    have hb0 : s.getD 0 0 = 0x6a := by rw [hse]; rfl
    have hb1 : s.getD 1 0 = pl.length := by rw [hse]; rfl
    have hlen : s.length = pl.length + 2 := by simp [hse]
    have hnd : is_nulldata s = true := by
      unfold is_nulldata
      rw [if_pos (by omega)]
      rw [decide_eq_true_eq]
      exact ⟨by omega, hb0, by omega⟩
    unfold type_and_payload
    rw [if_neg (fun hx => by have := is_p2pk_b0 s hx; omega),
      if_neg (fun hx => by have := is_p2pkh_b0 s hx; omega),
      if_neg (fun hx => by have := is_p2sh_b0 s hx; omega),
      if_neg (fun hx => by have := is_p2wpkh_b0 s hx; omega),
      if_neg (fun hx => by have := is_p2wsh_b0 s hx; omega),
      if_neg (fun hx => by have := (is_p2ms_b0 s hx).2; omega),
      if_pos hnd]
    have hpay : nulldataPayload s = pl := by
      unfold nulldataPayload
      rw [if_pos (by omega), hse]
      rfl
    rw [hpay]
  · have hpush : pushData pl = 0x4c :: pl.length :: pl := by
      unfold pushData
      rw [if_neg h75, if_pos (by omega)]
    set s := 0x6a :: pushData pl with hs
    have hse : s = 0x6a :: 0x4c :: pl.length :: pl := by rw [hs, hpush]
    have hb0 : s.getD 0 0 = 0x6a := by rw [hse]; rfl
    have hb1 : s.getD 1 0 = 0x4c := by rw [hse]; rfl
    have hb2 : s.getD 2 0 = pl.length := by rw [hse]; rfl
    have hlen : s.length = pl.length + 3 := by simp [hse]
    have hnd : is_nulldata s = true := by
      unfold is_nulldata
      rw [if_neg (by omega)]
      rw [decide_eq_true_eq]
      exact ⟨by omega, by omega, hb0, hb1, by omega⟩
    unfold type_and_payload
    rw [if_neg (fun hx => by have := is_p2pk_b0 s hx; omega),
      if_neg (fun hx => by have := is_p2pkh_b0 s hx; omega),
      if_neg (fun hx => by have := is_p2sh_b0 s hx; omega),
      if_neg (fun hx => by have := is_p2wpkh_b0 s hx; omega),
      if_neg (fun hx => by have := is_p2wsh_b0 s hx; omega),
      if_neg (fun hx => by have := (is_p2ms_b0 s hx).2; omega),
      if_pos hnd]
    have hpay : nulldataPayload s = pl := by
      unfold nulldataPayload
      rw [if_neg (by omega), hse]
      rfl
    rw [hpay]

/-- Valid payload for a script type: exactly the arguments its builder
accepts. -/
@[reducible] def validPayload : ScriptType → List Nat → Prop
  | .p2pk, pl => validKeyBytes pl = true
  | .p2pkh, pl => pl.length = 20
  | .p2sh, pl => pl.length = 20
  | .p2wpkh, pl => pl.length = 20
  | .p2wsh, pl => pl.length = 32
  | .p2ms, pl => is_p2ms (pl ++ [0xae]) = true
  | .nulldata, pl => pl.length ≤ 80
  | .unknown, _ => False

/-- C1: for every script type in p2pk, p2pkh, p2sh, p2wpkh, p2wsh,
p2ms, nulldata and every valid payload, building the script and
classifying it returns exactly the original type and payload. -/
theorem classify_build_roundtrip_spec :
    ∀ (t : ScriptType) (pl : List Nat), validPayload t pl →
      ∃ s, from_type_and_payload t pl = .ok s ∧ type_and_payload s = (t, pl) := by
  intro t pl hv
  cases t with
  | p2pk =>
    refine ⟨pushData pl ++ [0xac], ?_, tap_p2pk pl hv⟩
    unfold from_type_and_payload
    rw [if_pos hv]
  | p2pkh =>
    refine ⟨([0x76, 0xa9, 0x14] ++ pl) ++ [0x88, 0xac], ?_, ?_⟩
    · unfold from_type_and_payload
      dsimp only
      rw [if_pos hv]
    · exact tap_p2pkh pl hv
  | p2sh =>
    refine ⟨([0xa9, 0x14] ++ pl) ++ [0x87], ?_, ?_⟩
    · unfold from_type_and_payload
      dsimp only
      rw [if_pos hv]
    · exact tap_p2sh pl hv
  | p2wpkh =>
    refine ⟨[0x00, 0x14] ++ pl, ?_, ?_⟩
    · unfold from_type_and_payload
      dsimp only
      rw [if_pos hv]
    · exact tap_p2wpkh pl hv
  | p2wsh =>
    refine ⟨[0x00, 0x20] ++ pl, ?_, ?_⟩
    · unfold from_type_and_payload
      dsimp only
      rw [if_pos hv]
    · exact tap_p2wsh pl hv
  | p2ms =>
    refine ⟨pl ++ [0xae], ?_, tap_p2ms pl hv⟩
    unfold from_type_and_payload
    dsimp only
    rw [if_pos hv]
  | nulldata =>
    refine ⟨0x6a :: pushData pl, ?_, tap_nulldata pl hv⟩
    unfold from_type_and_payload
    dsimp only
    rw [if_pos hv]
  | unknown => exact hv.elim

/-- C1 witness: the round trip applied to one concrete valid payload of
each of the seven types. -/
theorem classify_build_roundtrip_spec_witness :
    (∃ s, from_type_and_payload .p2pk (2 :: List.replicate 32 0) = .ok s ∧
      type_and_payload s = (.p2pk, 2 :: List.replicate 32 0)) ∧
    (∃ s, from_type_and_payload .p2pkh (List.replicate 20 1) = .ok s ∧
      type_and_payload s = (.p2pkh, List.replicate 20 1)) ∧
    (∃ s, from_type_and_payload .p2sh (List.replicate 20 2) = .ok s ∧
      type_and_payload s = (.p2sh, List.replicate 20 2)) ∧
    (∃ s, from_type_and_payload .p2wpkh (List.replicate 20 3) = .ok s ∧
      type_and_payload s = (.p2wpkh, List.replicate 20 3)) ∧
    (∃ s, from_type_and_payload .p2wsh (List.replicate 32 4) = .ok s ∧
      type_and_payload s = (.p2wsh, List.replicate 32 4)) ∧
    (∃ s, from_type_and_payload .p2ms
        ([0x51] ++ (33 :: 2 :: List.replicate 32 5) ++ [0x51]) = .ok s ∧
      type_and_payload s =
        (.p2ms, [0x51] ++ (33 :: 2 :: List.replicate 32 5) ++ [0x51])) ∧
    (∃ s, from_type_and_payload .nulldata (List.replicate 80 6) = .ok s ∧
      type_and_payload s = (.nulldata, List.replicate 80 6)) :=
  ⟨classify_build_roundtrip_spec .p2pk _ (by decide),
    classify_build_roundtrip_spec .p2pkh _ (by decide),
    classify_build_roundtrip_spec .p2sh _ (by decide),
    classify_build_roundtrip_spec .p2wpkh _ (by decide),
    classify_build_roundtrip_spec .p2wsh _ (by decide),
    classify_build_roundtrip_spec .p2ms _ (by decide),
    classify_build_roundtrip_spec .nulldata _ (by decide)⟩

theorem secp256k1N_lt_pow : secp256k1N < 256 ^ 32 := by decide

/-- C2: for every private key in 1..n-1, every registered network and
both compressed flags, decoding the WIF produced by `wif_from_prv_key`
returns exactly the original triple. -/
theorem wif_roundtrip_spec :
    ∀ (q : Nat) (network : String) (compressed : Bool) (p : NetworkParams),
      networkParams network = some p → 0 < q → q < secp256k1N →
      ∃ w, wif_from_prv_key q network compressed = .ok w ∧
        prv_keyinfo_from_wif w none none = .ok (q, network, compressed) := by
  intro q network compressed p hp h0 hn
  have hq32 : q < 256 ^ 32 := lt_trans hn secp256k1N_lt_pow
  have hwif_lt : p.wif < 256 := by
    rcases networkParams_cases network p hp with ⟨-, rfl⟩ | ⟨-, rfl⟩ <;> decide
  have hblen : (natToBytesBE 32 q).length = 32 := natToBytesBE_length 32 q
  have hqval : bytesToNat (natToBytesBE 32 q) = q := bytesToNat_natToBytesBE 32 q hq32
  cases compressed with
  | false =>
    refine ⟨b58encode ([p.wif] ++ natToBytesBE 32 q ++ []), ?_, ?_⟩
    · unfold wif_from_prv_key
      rw [hp]
      dsimp only
      rw [if_pos ⟨h0, hn⟩]
      norm_num
    · have hlt : ∀ b ∈ [p.wif] ++ natToBytesBE 32 q ++ ([] : List Nat), b < 256 := by
        intro b hb
        simp only [List.append_nil, List.mem_append, List.mem_singleton] at hb
        rcases hb with rfl | hb
        · exact hwif_lt
        · exact natToBytesBE_lt 32 q b hb
      have hdec := b58decode_b58encode ([p.wif] ++ natToBytesBE 32 q ++ [])
        hlt none (Or.inl rfl)
      unfold prv_keyinfo_from_wif
      rw [hdec]
      dsimp only
      have htake : ([p.wif] ++ natToBytesBE 32 q ++ ([] : List Nat)).take 1 =
          [p.wif] := rfl
      rw [htake, network_from_key_value_wif network p hp]
      dsimp only
      rw [if_neg (by simp)]
      have hplen : ([p.wif] ++ natToBytesBE 32 q ++ ([] : List Nat)).length = 33 := by
        simp [hblen]
      rw [if_neg (by omega), if_pos hplen]
      dsimp only
      rw [if_neg (by simp)]
      have hdrop : ([p.wif] ++ natToBytesBE 32 q ++ ([] : List Nat)).drop 1 =
          natToBytesBE 32 q := by simp
      rw [hdrop, hqval, if_pos ⟨h0, hn⟩]
  | true =>
    refine ⟨b58encode ([p.wif] ++ natToBytesBE 32 q ++ [1]), ?_, ?_⟩
    · unfold wif_from_prv_key
      rw [hp]
      dsimp only
      rw [if_pos ⟨h0, hn⟩]
      norm_num
    · have hlt : ∀ b ∈ [p.wif] ++ natToBytesBE 32 q ++ [1], b < 256 := by
        intro b hb
        simp only [List.mem_append, List.mem_singleton] at hb
        rcases hb with (rfl | hb) | rfl
        · exact hwif_lt
        · exact natToBytesBE_lt 32 q b hb
        · omega
      have hdec := b58decode_b58encode ([p.wif] ++ natToBytesBE 32 q ++ [1])
        hlt none (Or.inl rfl)
      unfold prv_keyinfo_from_wif
      rw [hdec]
      dsimp only
      have htake : ([p.wif] ++ natToBytesBE 32 q ++ [1]).take 1 = [p.wif] := rfl
      rw [htake, network_from_key_value_wif network p hp]
      dsimp only
      rw [if_neg (by simp)]
      have hplen : ([p.wif] ++ natToBytesBE 32 q ++ [1]).length = 34 := by
        simp [hblen]
      rw [if_pos hplen]
      have hlast : ([p.wif] ++ natToBytesBE 32 q ++ [1]).getLast? = some 1 := by
        have hsh : [p.wif] ++ natToBytesBE 32 q ++ [1] =
            ([p.wif] ++ natToBytesBE 32 q) ++ [1] := by simp
        rw [hsh, List.getLast?_concat]
      rw [if_pos hlast]
      have hkey : (([p.wif] ++ natToBytesBE 32 q ++ [1]).drop 1).dropLast =
          natToBytesBE 32 q := by
        have hdrop : ([p.wif] ++ natToBytesBE 32 q ++ [1]).drop 1 =
            natToBytesBE 32 q ++ [1] := by simp
        rw [hdrop]
        simp
      rw [hkey, hqval]
      dsimp only
      rw [if_neg (by simp), if_pos ⟨h0, hn⟩]

/-- C2 witness: the round trip applied at a concrete key on testnet,
compressed. -/
theorem wif_roundtrip_spec_witness :
    networkParams "testnet" = some testnetP ∧ 0 < 11 ∧ 11 < secp256k1N ∧
    ∃ w, wif_from_prv_key 11 "testnet" true = .ok w ∧
      prv_keyinfo_from_wif w none none = .ok (11, "testnet", true) :=
  ⟨rfl, by decide, by decide,
    wif_roundtrip_spec 11 "testnet" true testnetP rfl (by decide) (by decide)⟩

end Btclib
